import Mathlib

/-!
# Verification of the bot-graph expansion engine

A shallow embedding of the crawling core of the youtube-bot-dataset
repository, covering:

* `app/pipeline/channels/scraping.py` — the consolidated bot-graph
  expansion engine (`expand_bot_graph_async`, `_process_channel_without_api`,
  `_process_subscriptions`, `_init_channel_doc`, `capture_home_screenshot`,
  `scrape_about_page`);
* `app/utils/manifest_utils.py` — `ManifestManager`.

External collaborators (the Firestore document store, the GCS blob store,
the YouTube Data API, and the headless browser) are modelled as explicit
data: Firestore collections become association lists keyed by document id,
and the network/browser is an environment (`EnvEntry` / `CrawlEnv`) that
records, for each channel identifier, what the page and the downloads
would yield.  `datetime.now()` timestamps become a `now : Nat` drawn from
the environment, and the random uuid suffix of screenshot blob names is
omitted from the modelled `gs://` URI.
-/

namespace YtBot

/-! ## Association-list primitives for Firestore collections

A Firestore collection keyed by document id is an association list.
`fsGet` models `collection.document(k).get()`, `fsSet` models
`collection.document(k).set(v)` (replace-or-insert).
-/

/-- Look up the first binding of key `k`, as `document(k).get()`. -/
def fsGet {α : Type} (l : List (String × α)) (k : String) : Option α :=
  (l.find? (fun p => p.1 == k)).map Prod.snd

/-- Replace the first binding of `k` by `v`, or append `(k, v)`:
`document(k).set(v)` semantics. -/
def fsSet {α : Type} (l : List (String × α)) (k : String) (v : α) :
    List (String × α) :=
  match l with
  | [] => [(k, v)]
  | (k2, v2) :: t => if k2 == k then (k, v) :: t else (k2, v2) :: fsSet t k v

/-! ## Document shapes

`ChannelDoc` is the dict written to the `channel` collection.  The two
writers in the source use slightly different key sets (`_init_channel_doc`
has `avatar_metrics` and no `banner_url`; the scrape-only branch of
`_process_channel_without_api` has `banner_url` and no `avatar_metrics`);
an absent key is modelled as `none` / `[]`.
-/

/-- A document of the `channel` Firestore collection. -/
structure ChannelDoc where
  channel_id : String
  registered_at : Nat
  last_checked_at : Nat
  is_bot : Bool
  is_bot_check_type : String
  is_bot_checked : Bool
  is_screenshot_stored : Bool
  screenshot_gcs_uri : Option String
  avatar_url : Option String
  avatar_gcs_uri : Option String
  banner_url : Option String
  banner_gcs_uri : Option String
  avatar_metrics : List (String × Int)
  is_metadata_missing : Bool
deriving DecidableEq, Repr

/-- A document of the `channel_pending` collection.  The call sites write
different subsets of these keys (some with `merge=True`); an absent key is
`none`.  A key explicitly written with value `None` in the source is also
modelled as `none`. -/
structure PendingDoc where
  handle : Option String := none
  screenshot_gcs_uri : Option String := none
  avatar_url : Option String := none
  avatar_gcs_uri : Option String := none
  banner_url : Option String := none
  banner_gcs_uri : Option String := none
  is_bot : Option Bool := none
  is_bot_check_type : Option String := none
  is_metadata_missing : Option Bool := none
  discovered_at : Option Nat := none
  last_checked_at : Option Nat := none
  source : Option String := none
  needs_resolution : Option Bool := none
deriving DecidableEq, Repr

/-- Firestore field-merge (`set(..., merge=True)`): fields present in the
new write override, others are kept. -/
def mergePending (old new : PendingDoc) : PendingDoc where
  handle := new.handle.orElse fun _ => old.handle
  screenshot_gcs_uri := new.screenshot_gcs_uri.orElse fun _ => old.screenshot_gcs_uri
  avatar_url := new.avatar_url.orElse fun _ => old.avatar_url
  avatar_gcs_uri := new.avatar_gcs_uri.orElse fun _ => old.avatar_gcs_uri
  banner_url := new.banner_url.orElse fun _ => old.banner_url
  banner_gcs_uri := new.banner_gcs_uri.orElse fun _ => old.banner_gcs_uri
  is_bot := new.is_bot.orElse fun _ => old.is_bot
  is_bot_check_type := new.is_bot_check_type.orElse fun _ => old.is_bot_check_type
  is_metadata_missing := new.is_metadata_missing.orElse fun _ => old.is_metadata_missing
  discovered_at := new.discovered_at.orElse fun _ => old.discovered_at
  last_checked_at := new.last_checked_at.orElse fun _ => old.last_checked_at
  source := new.source.orElse fun _ => old.source
  needs_resolution := new.needs_resolution.orElse fun _ => old.needs_resolution

/-- `collection("channel_pending").document(k).set(v, merge=True)`. -/
def setPendingMerge (l : List (String × PendingDoc)) (k : String)
    (v : PendingDoc) : List (String × PendingDoc) :=
  match fsGet l k with
  | some old => fsSet l k (mergePending old v)
  | none => fsSet l k v

/-- A document of the `channel_links` collection (added with auto-ids, so
the collection is a plain list). -/
structure LinkDoc where
  from_channel_id : String
  to_channel_id : Option String := none
  to_channel_handle : Option String := none
  discovered_at : Nat
  source : String
  needs_resolution : Option Bool := none
deriving DecidableEq, Repr

/-- A document of the `channel_domains` collection. -/
structure DomainDoc where
  from_channel_id : String
  url : String
  normalized_domain : Option String
  discovered_at : Nat
  source : String
deriving DecidableEq, Repr

/-- The Firestore collections touched by the expansion engine. -/
structure Firestore where
  channel : List (String × ChannelDoc)
  channel_pending : List (String × PendingDoc)
  channel_links : List LinkDoc
  channel_domains : List DomainDoc
deriving DecidableEq, Repr

/-- `db.batch()` holds pending `set`s on the `channel` collection;
`batch.commit()` applies them in order. -/
def batchCommit (channel : List (String × ChannelDoc))
    (batch : List (String × ChannelDoc)) : List (String × ChannelDoc) :=
  batch.foldl (fun c p => fsSet c p.1 p.2) channel

/-! ## ManifestManager (`app/utils/manifest_utils.py`)

The manifest lives in a GCS blob; `load`/`save` are the blob round-trip,
so the manager is modelled as pure transformations of the `Manifest`
value.  `save` stamps `last_run` with the current time, which is passed in
as the `now` argument.
-/

/-- The persisted manifest JSON object. -/
structure Manifest where
  completed : List String
  in_progress : Option String
  last_run : Option String
deriving DecidableEq, Repr

/-- `ManifestManager.save`: upload with a fresh `last_run` stamp. -/
def manifestSave (now : String) (m : Manifest) : Manifest :=
  { m with last_run := some now }

/-- `ManifestManager.mark_completed`: append `gcs_path` to `completed`
only if it is not already a member, then clear `in_progress` and save. -/
def mark_completed (now : String) (m : Manifest) (gcs_path : String) :
    Manifest :=
  let m1 :=
    if gcs_path ∈ m.completed then m
    else { m with completed := m.completed ++ [gcs_path] }
  manifestSave now { m1 with in_progress := none }

/-- `ManifestManager.is_completed`. -/
def manifest_is_completed (m : Manifest) (gcs_path : String) : Bool :=
  gcs_path ∈ m.completed

/-! ## The scraping environment

The headless browser, the image downloads and the YouTube Data API are
external collaborators.  `EnvEntry` records, per channel identifier, what
they would yield for that channel; identifiers without an entry behave as
channels for which every fetch fails and every list is empty.
-/

/-- What the channel homepage shows after the waits in
`capture_home_screenshot`: the `yt-alert-renderer` removed/suspended
alert, the normal `#contents` root, or neither (timeout). -/
inductive HomeOutcome
  | removedAlert
  | contentsOk
  | noContent
deriving DecidableEq, Repr

/-- Per-identifier behaviour of the browser, the downloads and the page
scrapes.  `featured`, `aboutLinks` and `subs` summarise what
`scrape_featured_channels` / `scrape_about_page` extract for this channel;
`raises` marks an identifier whose processing step raises an exception
(e.g. a store error or a browser crash) before any effect is recorded. -/
structure EnvEntry where
  homeOutcome : HomeOutcome := .noContent
  screenshotOk : Bool := false
  avatarUrl : Option String := none
  avatarStoreOk : Bool := false
  bannerUrl : Option String := none
  bannerStoreOk : Bool := false
  featured : List String := []
  aboutLinks : List String := []
  subs : List String := []
  raises : Bool := false
deriving DecidableEq, Repr

/-- Behaviour of the external collaborators used by `_init_channel_doc`
when API metadata is present: success of the avatar/banner GCS stores and
the result of `classify_avatar_url` (`none` models a raised exception,
which the source catches, leaving the metrics empty). -/
structure ApiDocEnv where
  storeAvatarOk : Bool := false
  storeBannerOk : Bool := false
  classifyMetrics : Option (List (String × Int)) := none
  now : Nat := 0
deriving DecidableEq, Repr

/-- The whole-crawl environment: one `EnvEntry` per identifier, the
handle-resolution table of the YouTube API, and the document helpers'
collaborators. -/
structure CrawlEnv where
  entries : List (String × EnvEntry)
  resolve : List (String × String)
  denv : ApiDocEnv
deriving DecidableEq, Repr

/-- Identifiers without an entry get the all-failing default entry. -/
def lookupEntry (env : CrawlEnv) (identifier : String) : EnvEntry :=
  (fsGet env.entries identifier).getD {}

/-- `GCS_BUCKET_DATA` (read from the deployment environment in
`app/env.py`). -/
def GCS_BUCKET_DATA : String := "yt-bot-data"

/-- Model of Python's `str.startswith`, over the character list. -/
def str_startsWith (s pre : String) : Bool :=
  pre.data.isPrefixOf s.data

/-- `get_channel_url`: channel URL from a `UC…` id or a handle. -/
def get_channel_url (identifier : String) (tab : String) : String :=
  if str_startsWith identifier "UC" then
    "https://www.youtube.com/channel/" ++ identifier ++ tab
  else
    "https://www.youtube.com/@" ++ identifier ++ tab

/-- The `gs://` URI returned by `upload_png` (the random uuid hex suffix
of the blob name is external randomness and is omitted). -/
def upload_png_uri (cid : String) : String :=
  "gs://" ++ GCS_BUCKET_DATA ++ "/channel_screenshots/raw/" ++ cid ++ ".png"

/-- The `gs://` URI of a stored avatar (`channel_avatars/{cid}.png`). -/
def avatar_gcs_path (cid : String) : String :=
  "gs://" ++ GCS_BUCKET_DATA ++ "/channel_avatars/" ++ cid ++ ".png"

/-- The `gs://` URI of a stored banner (`channel_banners/{cid}.jpg`). -/
def banner_gcs_path (cid : String) : String :=
  "gs://" ++ GCS_BUCKET_DATA ++ "/channel_banners/" ++ cid ++ ".jpg"

/-- `capture_home_screenshot`: if the page shows the removed/suspended
alert instead of `#contents`, log and return `None` (no screenshot); if
neither alert nor contents appears after the waits, the raised timeout is
caught and `None` is returned; otherwise screenshot and upload, which may
itself fail (caught, `None`). -/
def capture_home_screenshot (e : EnvEntry) (identifier : String) :
    Option String :=
  match e.homeOutcome with
  | .removedAlert => none
  | .noContent => none
  | .contentsOk =>
      if e.screenshotOk then some (upload_png_uri identifier) else none

/-- `scrape_avatar_url`: the `src` of `img.ytCoreImageHost` on the
homepage, or `None`. -/
def scrape_avatar_url (e : EnvEntry) : Option String :=
  e.avatarUrl

/-- `download_and_store_avatar`: download (at upgraded size), decode and
upload; any failure is caught and yields `None`. -/
def download_and_store_avatar (e : EnvEntry) (cid : String) : Option String :=
  if e.avatarStoreOk then some (avatar_gcs_path cid) else none

/-- `scrape_banner_url`: the `src` of the banner image, or `None`. -/
def scrape_banner_url (e : EnvEntry) : Option String :=
  e.bannerUrl

/-- `download_and_store_banner`: download, decode and upload; any failure
is caught and yields `None`. -/
def download_and_store_banner (e : EnvEntry) (cid : String) : Option String :=
  if e.bannerStoreOk then some (banner_gcs_path cid) else none

/-! ## `_init_channel_doc` -/

/-- The `snippet.thumbnails` object of a YouTube API channel item. -/
structure ApiThumbs where
  maxres : Option String := none
  high : Option String := none
  medium : Option String := none
  thumb_default : Option String := none
deriving DecidableEq, Repr

/-- The parts of a YouTube API channel response item read by
`_init_channel_doc` and its helpers. -/
structure ApiChannelItem where
  id : Option String := none
  thumbnails : Option ApiThumbs := none
  bannerExternalUrl : Option String := none
deriving DecidableEq, Repr

/-- `store_avatar_to_gcs`: pick the best thumbnail URL; `None` if absent,
otherwise download/decode/upload (success per `denv.storeAvatarOk`). -/
def store_avatar_to_gcs (denv : ApiDocEnv) (cid : String)
    (channel_item : ApiChannelItem) : Option String :=
  let thumbs := channel_item.thumbnails.getD {}
  let avatar_url :=
    (((thumbs.maxres.orElse fun _ => thumbs.high).orElse
      fun _ => thumbs.medium).orElse fun _ => thumbs.thumb_default)
  match avatar_url with
  | none => none
  | some _ => if denv.storeAvatarOk then some (avatar_gcs_path cid) else none

/-- `store_banner_to_gcs`: `brandingSettings.image.bannerExternalUrl`,
downloaded and uploaded (success per `denv.storeBannerOk`). -/
def store_banner_to_gcs (denv : ApiDocEnv) (cid : String)
    (channel_item : ApiChannelItem) : Option String :=
  match channel_item.bannerExternalUrl with
  | none => none
  | some _ => if denv.storeBannerOk then some (banner_gcs_path cid) else none

/-- The document dict built by `_init_channel_doc` for an absent channel
(lines 811–847 of `scraping.py`): avatar/banner/metrics only when an API
item is given and `scraped_only` is false. -/
def init_channel_doc_data (denv : ApiDocEnv) (cid : String)
    (channel_item : Option ApiChannelItem) (screenshot_uri : Option String)
    (scraped_only : Bool) (is_bot : Bool) (bot_check_type : String) :
    ChannelDoc :=
  let enrich := channel_item.isSome && !scraped_only
  let avatar_url : Option String :=
    match channel_item with
    | some item =>
        if scraped_only then none
        else
          match item.thumbnails with
          | some t => t.high.orElse fun _ => t.thumb_default
          | none => none
    | none => none
  let avatar_gcs_uri : Option String :=
    match channel_item with
    | some item =>
        if scraped_only then none else store_avatar_to_gcs denv cid item
    | none => none
  let banner_gcs_uri : Option String :=
    match channel_item with
    | some item =>
        if scraped_only then none else store_banner_to_gcs denv cid item
    | none => none
  let metrics : List (String × Int) :=
    if enrich && avatar_url.isSome then (denv.classifyMetrics).getD [] else []
  { channel_id := cid
    registered_at := denv.now
    last_checked_at := denv.now
    is_bot := is_bot
    is_bot_check_type := bot_check_type
    is_bot_checked := is_bot
    is_screenshot_stored := screenshot_uri.isSome
    screenshot_gcs_uri := screenshot_uri
    avatar_url := avatar_url
    avatar_gcs_uri := avatar_gcs_uri
    banner_url := none
    banner_gcs_uri := banner_gcs_uri
    avatar_metrics := metrics
    is_metadata_missing := scraped_only }

/-- `_init_channel_doc`: if the `channel` document already exists, return
without touching the batch; otherwise add the freshly built document to
the batch. -/
def init_channel_doc (denv : ApiDocEnv)
    (channel : List (String × ChannelDoc))
    (batch : List (String × ChannelDoc)) (cid : String)
    (channel_item : Option ApiChannelItem) (screenshot_uri : Option String)
    (scraped_only : Bool) (is_bot : Bool) (bot_check_type : String) :
    List (String × ChannelDoc) :=
  if (fsGet channel cid).isSome then batch
  else
    batch ++ [(cid, init_channel_doc_data denv cid channel_item
      screenshot_uri scraped_only is_bot bot_check_type)]

/-! ## `store_channel_domains` -/

/-- Model of Python's `str.lstrip(chars)`: strip leading characters drawn
from the set. -/
def lstripChars (s : String) (cs : List Char) : String :=
  String.mk (s.toList.dropWhile (fun c => c ∈ cs))

/-- Model of `urllib.parse.urlparse(url).hostname` for `scheme://host/…`
URLs: the (lowercased) authority before any `/`, `:` or `@` is dropped as
in the stdlib; URLs without `://` have no hostname. -/
def url_hostname (url : String) : Option String :=
  match url.splitOn "://" with
  | _ :: rest :: _ =>
      let auth := (rest.splitOn "/").headD ""
      let host := ((auth.splitOn "@").getLastD auth).takeWhile (· ≠ ':')
      if host.isEmpty then none else some host.toLower
  | _ => none

/-- The `normalized_domain` computed in `store_channel_domains`:
`(hostname or url).lower().lstrip("www.")` unless falsy. -/
def normalized_domain_of (url : String) : Option String :=
  let hostname := match url_hostname url with
    | some h => h
    | none => url
  if hostname.isEmpty then none
  else some (lstripChars hostname.toLower ['w', '.'])

/-- `store_channel_domains`: one `channel_domains` document per About
link. -/
def store_channel_domains (now : Nat) (cid : String) (urls : List String)
    (domains : List DomainDoc) : List DomainDoc :=
  domains ++ urls.map (fun url =>
    { from_channel_id := cid
      url := url
      normalized_domain := normalized_domain_of url
      discovered_at := now
      source := "about_section" })

/-! ## The crawl state

`expand_bot_graph_async` keeps a FIFO `queue`, a `seen` set, and writes
through the shared Firestore client.  For verification the state also
logs every dequeued identifier (`processed`), every enqueue event
(`enqueued`, seeds included), and every scraper invocation (`calls`). -/

/-- The browser/scraper entry points invoked by
`_process_channel_without_api`. -/
inductive ScrapeCall
  | captureHome
  | scrapeAvatar
  | scrapeBanner
  | scrapeFeatured
  | scrapeAbout
deriving DecidableEq, Repr

/-- Label propagation parameters of a crawl run. -/
structure CrawlParams where
  is_bot : Bool
  bot_check_type : String
deriving DecidableEq, Repr

/-- The mutable state of one `expand_bot_graph_async` run. -/
structure CrawlState where
  db : Firestore
  seen : Finset String
  queue : List String
  processed : List String
  enqueued : List String
  calls : List (String × ScrapeCall)

/-- `seen.add(x); queue.append(x)` for an identifier known to be new. -/
def enqueue (x : String) (s : CrawlState) : CrawlState :=
  { s with
    seen := insert x s.seen
    queue := s.queue ++ [x]
    enqueued := s.enqueued ++ [x] }

/-- `if x not in seen: seen.add(x); queue.append(x)`. -/
def enqueueIfNew (x : String) (s : CrawlState) : CrawlState :=
  if x ∈ s.seen then s else enqueue x s

/-- Record one scraper invocation for `identifier`. -/
def logCall (identifier : String) (c : ScrapeCall) (s : CrawlState) :
    CrawlState :=
  { s with calls := s.calls ++ [(identifier, c)] }

/-- The skeleton `channel` document written by the scrape-only branch of
`_process_channel_without_api` (lines 975–989 of `scraping.py`). -/
def scrape_only_channel_doc (now : Nat) (p : CrawlParams)
    (identifier : String) (screenshot_uri avatar_url avatar_gcs_uri
    banner_url banner_gcs_uri : Option String) : ChannelDoc :=
  { channel_id := identifier
    registered_at := now
    last_checked_at := now
    is_bot := p.is_bot
    is_bot_check_type := p.bot_check_type
    is_bot_checked := p.is_bot
    is_screenshot_stored := screenshot_uri.isSome
    screenshot_gcs_uri := screenshot_uri
    avatar_url := avatar_url
    avatar_gcs_uri := avatar_gcs_uri
    banner_url := banner_url
    banner_gcs_uri := banner_gcs_uri
    avatar_metrics := []
    is_metadata_missing := true }

/-- One featured channel from the loop in
`_process_channel_without_api` (lines 1008–1044): a `UC…` id is enqueued
if unseen, with a link document and an immediately committed skeleton
document; a handle is enqueued if unseen, and a link document plus a
`channel_pending` document are always written. -/
def processFeaturedOne (env : CrawlEnv) (p : CrawlParams)
    (identifier : String) (s : CrawlState) (f : String) : CrawlState :=
  if str_startsWith f "UC" then
    if f ∈ s.seen then s
    else
      let s1 := enqueue f s
      let link : LinkDoc :=
        { from_channel_id := identifier
          to_channel_id := some f
          discovered_at := env.denv.now
          source := "featured_scrape"
          needs_resolution := some false }
      let fb := init_channel_doc env.denv s1.db.channel [] f none none
        true p.is_bot p.bot_check_type
      { s1 with db :=
        { s1.db with
          channel_links := s1.db.channel_links ++ [link]
          channel := batchCommit s1.db.channel fb } }
  else
    let s1 := enqueueIfNew f s
    let link : LinkDoc :=
      { from_channel_id := identifier
        to_channel_handle := some f
        discovered_at := env.denv.now
        source := "featured_scrape"
        needs_resolution := some true }
    let pend : PendingDoc :=
      { handle := some f
        discovered_at := some env.denv.now
        source := some "featured_scrape"
        needs_resolution := some true }
    { s1 with db :=
      { s1.db with
        channel_links := s1.db.channel_links ++ [link]
        channel_pending := fsSet s1.db.channel_pending f pend } }

/-- `_process_channel_without_api` (scrape-only processing of one frontier
item).  Returns the updated state, the batched `channel` write (committed
by the caller), and the subscriptions found on the About page. -/
def process_channel_without_api (env : CrawlEnv) (p : CrawlParams)
    (identifier : String) (s : CrawlState) :
    CrawlState × List (String × ChannelDoc) × List String :=
  let e := lookupEntry env identifier
  let s := logCall identifier .captureHome s
  let screenshot_uri := capture_home_screenshot e identifier
  let s := logCall identifier .scrapeAvatar s
  let avatar_url := scrape_avatar_url e
  let avatar_gcs_uri := match avatar_url with
    | some _ => download_and_store_avatar e identifier
    | none => none
  let s := logCall identifier .scrapeBanner s
  let banner_url := scrape_banner_url e
  let banner_gcs_uri := match banner_url with
    | some _ => download_and_store_banner e identifier
    | none => none
  let sb : CrawlState × List (String × ChannelDoc) :=
    if str_startsWith identifier "UC" then
      (s, [(identifier, scrape_only_channel_doc env.denv.now p identifier
        screenshot_uri avatar_url avatar_gcs_uri banner_url
        banner_gcs_uri)])
    else
      let pend : PendingDoc :=
        { handle := some identifier
          screenshot_gcs_uri := screenshot_uri
          avatar_url := avatar_url
          avatar_gcs_uri := avatar_gcs_uri
          banner_url := banner_url
          banner_gcs_uri := banner_gcs_uri
          is_bot := some p.is_bot
          is_bot_check_type := some p.bot_check_type
          is_metadata_missing := some true
          discovered_at := some env.denv.now
          last_checked_at := some env.denv.now }
      ({ s with db :=
        { s.db with channel_pending :=
            setPendingMerge s.db.channel_pending identifier pend } }, [])
  let s := sb.1
  let batch := sb.2
  let s := logCall identifier .scrapeFeatured s
  let s := e.featured.foldl (processFeaturedOne env p identifier) s
  let s := logCall identifier .scrapeAbout s
  let about_links := e.aboutLinks
  let subs := e.subs
  let s :=
    if about_links.isEmpty then s
    else
      { s with db :=
        { s.db with channel_domains :=
            (store_channel_domains env.denv.now identifier about_links
              s.db.channel_domains) } }
  (s, batch, subs)

/-- `resolve_handle_to_id` as seen through the API resolution table. -/
def resolve_handle_to_id (env : CrawlEnv) (handle : String) :
    Option String :=
  fsGet env.resolve handle

/-- One subscription from `_process_subscriptions`: a `UC…` id (given, or
obtained by resolution in API mode) is enqueued if unseen with a link
document; in scrape-only mode an unresolved handle is enqueued if unseen
and a link document plus a `channel_pending` document are written. -/
def processSubsOne (env : CrawlEnv) (_p : CrawlParams) (use_api : Bool)
    (identifier : String) (s : CrawlState) (sub : String) : CrawlState :=
  let phase2 : String → CrawlState := fun sub_id =>
    if sub_id ∉ s.seen ∧ str_startsWith sub_id "UC" then
      let s1 := enqueue sub_id s
      let link : LinkDoc :=
        { from_channel_id := identifier
          to_channel_id := some sub_id
          discovered_at := env.denv.now
          source := "subscriptions"
          needs_resolution := some false }
      { s1 with db :=
        { s1.db with channel_links := s1.db.channel_links ++ [link] } }
    else s
  if str_startsWith sub "UC" then phase2 sub
  else if use_api then phase2 ((resolve_handle_to_id env sub).getD sub)
  else
    let s1 := enqueueIfNew sub s
    let link : LinkDoc :=
      { from_channel_id := identifier
        to_channel_handle := some sub
        discovered_at := env.denv.now
        source := "subscriptions"
        needs_resolution := some true }
    let pend : PendingDoc :=
      { handle := some sub
        discovered_at := some env.denv.now
        source := some "subscriptions"
        needs_resolution := some true }
    { s1 with db :=
      { s1.db with
        channel_links := s1.db.channel_links ++ [link]
        channel_pending := fsSet s1.db.channel_pending sub pend } }

/-- `_process_subscriptions`. -/
def process_subscriptions (env : CrawlEnv) (p : CrawlParams)
    (subs : List String) (identifier : String) (use_api : Bool)
    (s : CrawlState) : CrawlState :=
  subs.foldl (processSubsOne env p use_api identifier) s

/-- One iteration of the frontier loop of `expand_bot_graph_async`
(scrape-only mode): pop, process inside `try`, commit the batch.  Both
`except` clauses only log, so a raising item leaves just the pop (the
failure is modelled as occurring before the first recorded effect). -/
def crawlStep (env : CrawlEnv) (p : CrawlParams) (s : CrawlState) :
    CrawlState :=
  match s.queue with
  | [] => s
  | identifier :: rest =>
    let s0 := { s with
      queue := rest
      processed := s.processed ++ [identifier] }
    if (lookupEntry env identifier).raises then s0
    else
      let r := process_channel_without_api env p identifier s0
      let s2 := process_subscriptions env p r.2.2 identifier false r.1
      { s2 with db :=
        { s2.db with channel := batchCommit s2.db.channel r.2.1 } }

/-- The `while queue:` loop, with explicit fuel (the loop is proved below
to drain within a computable bound). -/
def crawlRun (env : CrawlEnv) (p : CrawlParams) :
    Nat → CrawlState → CrawlState
  | 0, s => s
  | n + 1, s =>
    match s.queue with
    | [] => s
    | _ :: _ => crawlRun env p n (crawlStep env p s)

/-- `seen, queue = set(seed_channels), list(seed_channels)`. -/
def initState (db0 : Firestore) (seed_channels : List String) : CrawlState :=
  { db := db0
    seen := seed_channels.toFinset
    queue := seed_channels
    processed := []
    enqueued := seed_channels
    calls := [] }

/-- `expand_bot_graph_async` in scrape-only mode (`use_api=False`, the
default): seed the frontier and drain it. -/
def expand_bot_graph_async (env : CrawlEnv) (p : CrawlParams)
    (db0 : Firestore) (seed_channels : List String) (fuel : Nat) :
    CrawlState :=
  if seed_channels.isEmpty then initState db0 seed_channels
  else crawlRun env p fuel (initState db0 seed_channels)

/-- The default seed query of the `__main__` entrypoint: all `channel`
documents with `is_bot_checked == True` and `is_bot == True`. -/
def firestore_bot_seeds (channel : List (String × ChannelDoc)) :
    List String :=
  (channel.filter (fun pr => pr.2.is_bot_checked && pr.2.is_bot)).map
    Prod.fst

/-! ## `scrape_about_page` (detailed control-flow model)

For the crawl above, the About-page scrape is summarised by its result
lists in `EnvEntry`.  Here the navigation/retry/cleanup protocol of
`scrape_about_page` itself (lines 423–549 of `scraping.py`) is modelled:
up to three `page.goto` attempts; after each, the page may show the
removed alert, may fail to show any About content, or may be loaded;
exceptions are caught by the outer `try`, and the `finally` block always
closes the page that was opened. -/

/-- What one navigation attempt observes. -/
inductive NavOutcome
  | navError
  | removedAlert
  | notLoaded
  | loaded
deriving DecidableEq, Repr

/-- Page behaviour for one `scrape_about_page` invocation: whether
`context.new_page()` succeeds, the outcome of each of the three
navigation attempts, and the `href` attributes of the link anchors and
subscription tiles once loaded (`none` models a missing attribute). -/
structure AboutPageEnv where
  newPageOk : Bool := true
  nav0 : NavOutcome := .navError
  nav1 : NavOutcome := .navError
  nav2 : NavOutcome := .navError
  anchors : List (Option String) := []
  tiles : List (Option String) := []
deriving DecidableEq, Repr

/-- Value of a hexadecimal digit. -/
def hexDigitVal (c : Char) : Option Nat :=
  if '0' ≤ c ∧ c ≤ '9' then some (c.toNat - '0'.toNat)
  else if 'a' ≤ c ∧ c ≤ 'f' then some (c.toNat - 'a'.toNat + 10)
  else if 'A' ≤ c ∧ c ≤ 'F' then some (c.toNat - 'A'.toNat + 10)
  else none

/-- Percent-decoding model of `urllib.parse.unquote` (single-byte code
points). -/
def percentDecodeList : List Char → List Char
  | '%' :: a :: b :: rest =>
    match hexDigitVal a, hexDigitVal b with
    | some x, some y => Char.ofNat (16 * x + y) :: percentDecodeList rest
    | _, _ => '%' :: percentDecodeList (a :: b :: rest)
  | c :: rest => c :: percentDecodeList rest
  | [] => []

/-- `urllib.parse.unquote`. -/
def unquote (s : String) : String :=
  String.mk (percentDecodeList s.toList)

/-- `sub` occurs as a substring of `s`. -/
def containsSub (s sub : String) : Bool :=
  (s.splitOn sub).length > 1

/-- Model of `parse_qs(urlparse(href).query).get("q", [href])[0]`: the
(decoded) value of the `q` query parameter, or `href` unchanged. -/
def redirect_target (href : String) : String :=
  match href.splitOn "?" with
  | _ :: query :: _ =>
    let params := query.splitOn "&"
    match params.find? (fun kv => str_startsWith kv "q=") with
    | some kv => unquote (kv.drop 2)
    | none => href
  | _ => href

/-- The external-link extraction over `#link-list-container a` anchors:
unwrap `youtube.com/redirect` wrappers, keep truthy hrefs. -/
def extract_about_links (anchors : List (Option String)) : List String :=
  anchors.foldl (fun acc a =>
    match a with
    | none => acc
    | some href0 =>
      let href :=
        if containsSub href0 "youtube.com/redirect" then
          redirect_target href0
        else href0
      if href.isEmpty then acc else acc ++ [href]) []

/-- Subscription-tile extraction: ids from `/channel/…` hrefs, handles
(unquoted) from `/@…` hrefs, up to `sub_limit` tiles. -/
def extract_subscriptions (tiles : List (Option String)) (sub_limit : Nat) :
    List String :=
  (tiles.take sub_limit).foldl (fun acc t =>
    match t with
    | none => acc
    | some href =>
      if str_startsWith href "/@" then acc ++ [unquote (href.drop 2)]
      else if str_startsWith href "/channel/" then
        acc ++ [(href.splitOn "/channel/").getD 1 ""]
      else acc) []

/-- Result of the retry loop: bail out with empty lists, or proceed to
extraction; in both cases the number of attempts used is recorded. -/
inductive NavLoopResult
  | earlyReturn (attempts_used : Nat)
  | proceed (attempts_used : Nat)
deriving DecidableEq, Repr

/-- Attempts used by a `NavLoopResult`. -/
def NavLoopResult.used : NavLoopResult → Nat
  | .earlyReturn n => n
  | .proceed n => n

/-- The `for attempt in range(3)` navigation loop: a navigation error or
missing content retries (returning empty on the last attempt), a removed
alert returns empty immediately, a loaded page breaks out to the
extraction code.  Falling off the loop would also reach the extraction
code. -/
def aboutNavLoop : List NavOutcome → Nat → NavLoopResult
  | [], used => .proceed used
  | o :: rest, used =>
    match o with
    | .navError =>
        if rest.isEmpty then .earlyReturn (used + 1)
        else aboutNavLoop rest (used + 1)
    | .removedAlert => .earlyReturn (used + 1)
    | .notLoaded =>
        if rest.isEmpty then .earlyReturn (used + 1)
        else aboutNavLoop rest (used + 1)
    | .loaded => .proceed (used + 1)

/-- The observable outcome of one `scrape_about_page` call. -/
structure AboutResult where
  about_links : List String
  subscriptions : List String
  attempts_used : Nat
  page_opened : Bool
  page_closed : Bool
deriving DecidableEq, Repr

/-- `scrape_about_page`: open a tab (a failing open is caught and yields
empty results with no page to close), run the retry loop, then extract
links and subscriptions; the `finally` block closes the page on every
path. -/
def scrape_about_page (e : AboutPageEnv) (sub_limit : Nat) : AboutResult :=
  if e.newPageOk = false then
    { about_links := []
      subscriptions := []
      attempts_used := 0
      page_opened := false
      page_closed := false }
  else
    match aboutNavLoop [e.nav0, e.nav1, e.nav2] 0 with
    | .earlyReturn n =>
      { about_links := []
        subscriptions := []
        attempts_used := n
        page_opened := true
        page_closed := true }
    | .proceed n =>
      { about_links := extract_about_links e.anchors
        subscriptions := extract_subscriptions e.tiles sub_limit
        attempts_used := n
        page_opened := true
        page_closed := true }

/-! ## Crawl universe, measure and invariants

Every identifier ever enqueued is a seed or appears in some entry's
`featured` / `subs` list, so the finite `uniFinset` bounds the seen-set
and `crawlMeasure` strictly decreases at each loop iteration. -/

/-- All identifiers the environment can ever surface. -/
def uniList (env : CrawlEnv) (seed_channels : List String) : List String :=
  seed_channels ++
    env.entries.flatMap (fun pr => pr.1 :: (pr.2.featured ++ pr.2.subs))

/-- The crawl universe as a finite set. -/
def uniFinset (env : CrawlEnv) (seed_channels : List String) :
    Finset String :=
  (uniList env seed_channels).toFinset

/-- Loop variant: unseen universe elements weigh twice a queue slot. -/
def crawlMeasure (U : Finset String) (s : CrawlState) : Nat :=
  2 * (U.card - s.seen.card) + s.queue.length

/-- Bookkeeping invariant: the queue never holds duplicates, everything
queued or logged as enqueued is in the seen-set, and the enqueue log has
no duplicates (no identifier is enqueued twice). -/
def NodupInv (s : CrawlState) : Prop :=
  s.queue.Nodup ∧ (∀ x ∈ s.queue, x ∈ s.seen) ∧
    s.enqueued.Nodup ∧ (∀ x ∈ s.enqueued, x ∈ s.seen)

/-- What one elementary update inside a processing step preserves:
the seen-set stays inside the universe and the measure does not grow;
`processed` is untouched; queue members are kept; `NodupInv` is
preserved; and any new `channel` document carries the run's
`bot_check_type`. -/
def PhaseOK (U : Finset String) (bct : String) (s s2 : CrawlState) : Prop :=
  (s.seen ⊆ U → s2.seen ⊆ U ∧ crawlMeasure U s2 ≤ crawlMeasure U s) ∧
  s2.processed = s.processed ∧
  (∀ y ∈ s.queue, y ∈ s2.queue) ∧
  (NodupInv s → NodupInv s2) ∧
  (∀ k d, (k, d) ∈ s2.db.channel →
    (k, d) ∈ s.db.channel ∨ d.is_bot_check_type = bct)

/-! ## Concrete fixtures for the closed test cases below -/

/-- An empty Firestore. -/
def fsEmpty : Firestore :=
  { channel := [], channel_pending := [], channel_links := [],
    channel_domains := [] }

/-- The all-default crawl parameters (`is_bot=True`,
`bot_check_type="propagated"`). -/
def pDefault : CrawlParams :=
  { is_bot := true, bot_check_type := "propagated" }

/-- A `pending_review` seed run (`is_bot=False`). -/
def pPendingReview : CrawlParams :=
  { is_bot := false, bot_check_type := "pending_review" }

/-- An environment in which channel `UCgone` shows the removed alert. -/
def envRemoved : CrawlEnv :=
  { entries := [("UCgone", { homeOutcome := .removedAlert })],
    resolve := [], denv := {} }

/-- An environment that resolves nothing and knows no channels. -/
def envBlank : CrawlEnv :=
  { entries := [], resolve := [], denv := {} }

/-- The two-node cyclic featured graph A→B→A of the specification's
termination scenario (`UCaaa` features `UCbbb` and vice versa). -/
def envCycle : CrawlEnv :=
  { entries :=
      [("UCaaa", { featured := ["UCbbb"] }),
       ("UCbbb", { featured := ["UCaaa"] })],
    resolve := [], denv := {} }

/-- An environment in which processing `UCboom` raises and `UCok` is an
ordinary channel. -/
def envOneFailure : CrawlEnv :=
  { entries :=
      [("UCboom", { raises := true }),
       ("UCok", {})],
    resolve := [], denv := {} }

/-- A pre-existing, manually labelled channel document. -/
def docManual : ChannelDoc :=
  { channel_id := "UCseed"
    registered_at := 0
    last_checked_at := 0
    is_bot := true
    is_bot_check_type := "manual"
    is_bot_checked := true
    is_screenshot_stored := false
    screenshot_gcs_uri := none
    avatar_url := none
    avatar_gcs_uri := none
    banner_url := none
    banner_gcs_uri := none
    avatar_metrics := []
    is_metadata_missing := false }

/-- A Firestore already holding the manually labelled `UCseed`. -/
def dbWithManualSeed : Firestore :=
  { channel := [("UCseed", docManual)], channel_pending := [],
    channel_links := [], channel_domains := [] }

/-! # Proofs -/

/-! ## Association-list store lemmas -/

@[simp] theorem fsGet_nil {α : Type} (k : String) :
    fsGet ([] : List (String × α)) k = none := rfl

theorem fsGet_cons {α : Type} (k2 : String) (v2 : α) (t : List (String × α))
    (k : String) :
    fsGet ((k2, v2) :: t) k = if k2 == k then some v2 else fsGet t k := by
  simp only [fsGet, List.find?]
  by_cases h : k2 == k <;> simp [h]

/-- Setting then reading the same key yields the written value. -/
theorem fsGet_fsSet_self {α : Type} (l : List (String × α)) (k : String)
    (v : α) : fsGet (fsSet l k v) k = some v := by
  induction l with
  | nil => simp [fsSet, fsGet_cons]
  | cons hd t ih =>
    obtain ⟨k2, v2⟩ := hd
    simp only [fsSet]
    by_cases h : k2 == k
    · simp [fsGet_cons, h]
    · simp [fsGet_cons, h, ih]

/-- Membership in `fsSet l k v`: either an old binding or the new one. -/
theorem mem_fsSet {α : Type} {l : List (String × α)} {k : String} {v : α}
    {p : String × α} : p ∈ fsSet l k v → p ∈ l ∨ p = (k, v) := by
  induction l with
  | nil =>
    intro h
    simp only [fsSet, List.mem_singleton] at h
    exact Or.inr h
  | cons hd t ih =>
    obtain ⟨k2, v2⟩ := hd
    intro h
    simp only [fsSet] at h
    by_cases hk : (k2 == k) = true
    · rw [if_pos hk] at h
      rcases List.mem_cons.mp h with h | h
      · exact Or.inr h
      · exact Or.inl (List.mem_cons_of_mem _ h)
    · rw [if_neg hk] at h
      rcases List.mem_cons.mp h with h | h
      · exact Or.inl (by simp [h])
      · rcases ih h with h2 | h2
        · exact Or.inl (List.mem_cons_of_mem _ h2)
        · exact Or.inr h2

/-- If `k` is absent, `fsSet` appends, so `k` then occurs exactly once. -/
theorem countP_fsSet_of_absent {α : Type} {l : List (String × α)}
    {k : String} (v : α) : fsGet l k = none →
    (fsSet l k v).countP (fun p => p.1 == k) = 1 := by
  induction l with
  | nil => intro _; simp [fsSet, List.countP_cons]
  | cons hd t ih =>
    obtain ⟨k2, v2⟩ := hd
    intro h
    rw [fsGet_cons] at h
    by_cases hk : (k2 == k) = true
    · rw [if_pos hk] at h
      exact absurd h (by simp)
    · rw [if_neg hk] at h
      simp only [fsSet]
      rw [if_neg hk, List.countP_cons]
      simp only [hk, if_false, Nat.add_zero]
      exact ih h

/-- With distinct keys, the binding of `k` in `fsSet l k v` is `v`. -/
theorem eq_of_mem_fsSet_self_key {α : Type} {l : List (String × α)}
    {k : String} {v d : α} (hnd : (l.map Prod.fst).Nodup)
    (h : (k, d) ∈ fsSet l k v) : d = v := by
  induction l with
  | nil =>
    simp only [fsSet, List.mem_singleton, Prod.mk.injEq] at h
    exact h.2
  | cons hd t ih =>
    obtain ⟨k2, v2⟩ := hd
    simp only [List.map_cons, List.nodup_cons] at hnd
    simp only [fsSet] at h
    by_cases hk : (k2 == k) = true
    · rw [if_pos hk] at h
      rcases List.mem_cons.mp h with h | h
      · exact (Prod.mk.injEq _ _ _ _ ▸ h).2
      · exfalso
        have hk2 : k2 = k := by simpa using hk
        exact hnd.1 (hk2 ▸ List.mem_map_of_mem Prod.fst h)
    · rw [if_neg hk] at h
      rcases List.mem_cons.mp h with h | h
      · exfalso
        have hkk : k = k2 := congrArg Prod.fst h
        simp [hkk] at hk
      · exact ih hnd.2 h

theorem batchCommit_nil (channel : List (String × ChannelDoc)) :
    batchCommit channel [] = channel := rfl

theorem batchCommit_singleton (channel : List (String × ChannelDoc))
    (k : String) (v : ChannelDoc) :
    batchCommit channel [(k, v)] = fsSet channel k v := rfl

/-- Documents in a committed state come from the prior state or the
batch. -/
theorem mem_batchCommit {channel batch : List (String × ChannelDoc)}
    {k : String} {d : ChannelDoc}
    (h : (k, d) ∈ batchCommit channel batch) :
    (k, d) ∈ channel ∨ (k, d) ∈ batch := by
  induction batch generalizing channel with
  | nil => exact Or.inl h
  | cons b t ih =>
    obtain ⟨kb, vb⟩ := b
    have h2 : (k, d) ∈ batchCommit (fsSet channel kb vb) t := h
    rcases ih h2 with h3 | h3
    · rcases mem_fsSet h3 with h4 | h4
      · exact Or.inl h4
      · exact Or.inr (by simp [h4])
    · exact Or.inr (List.mem_cons_of_mem _ h3)

/-! ## C9 — `ManifestManager.mark_completed` is idempotent -/

/-- C9: `mark_completed` appends a path only if it is not already a
member of `completed`; a second call with the same path leaves the
`completed` list unchanged, and (starting from a manifest holding the
path at most once) the path ends up with exactly one occurrence. -/
theorem mark_completed_idempotent (m : Manifest) (p n1 n2 : String) :
    (mark_completed n2 (mark_completed n1 m p) p).completed
      = (mark_completed n1 m p).completed ∧
    (m.completed.count p ≤ 1 →
      (mark_completed n2 (mark_completed n1 m p) p).completed.count p
        = 1) := by
  have hcomp : ∀ (now : String) (m2 : Manifest),
      (mark_completed now m2 p).completed =
        if p ∈ m2.completed then m2.completed else m2.completed ++ [p] := by
    intro now m2
    by_cases h : p ∈ m2.completed <;> simp [mark_completed, manifestSave, h]
  have hmem1 : p ∈ (mark_completed n1 m p).completed := by
    rw [hcomp]
    by_cases h : p ∈ m.completed <;> simp [h]
  constructor
  · rw [hcomp n2 (mark_completed n1 m p), if_pos hmem1]
  · intro hle
    rw [hcomp n2 (mark_completed n1 m p), if_pos hmem1, hcomp n1 m]
    by_cases h : p ∈ m.completed
    · rw [if_pos h]
      have hpos : 0 < m.completed.count p := List.count_pos_iff.mpr h
      omega
    · rw [if_neg h]
      have h0 : m.completed.count p = 0 := List.count_eq_zero.mpr h
      simp [List.count_append, h0]

/-- Closed instance of `mark_completed_idempotent` on a fresh manifest. -/
theorem mark_completed_idempotent_witness :
    (mark_completed "t2"
        (mark_completed "t1" ⟨[], none, none⟩ "a/b.json")
        "a/b.json").completed.count "a/b.json" = 1 :=
  (mark_completed_idempotent ⟨[], none, none⟩ "a/b.json" "t1" "t2").2
    (by decide)

/-! ## C1 — `_init_channel_doc` create-if-absent semantics -/

/-- C1: with no document for `cid` in the `channel` collection, a first
`_init_channel_doc` call writes exactly one document; a second call (with
any arguments) adds nothing to its batch, leaves the store unchanged, and
the stored document is the one from the first call. -/
theorem init_channel_doc_create_once (denv1 denv2 : ApiDocEnv)
    (ch : List (String × ChannelDoc)) (cid : String)
    (item1 item2 : Option ApiChannelItem) (ss1 ss2 : Option String)
    (so1 so2 ib1 ib2 : Bool) (bct1 bct2 : String)
    (habs : fsGet ch cid = none) :
    init_channel_doc denv2
        (batchCommit ch (init_channel_doc denv1 ch [] cid item1 ss1 so1
          ib1 bct1))
        [] cid item2 ss2 so2 ib2 bct2 = [] ∧
    fsGet
        (batchCommit ch (init_channel_doc denv1 ch [] cid item1 ss1 so1
          ib1 bct1)) cid
      = some (init_channel_doc_data denv1 cid item1 ss1 so1 ib1 bct1) ∧
    (batchCommit ch (init_channel_doc denv1 ch [] cid item1 ss1 so1 ib1
        bct1)).countP (fun pr => pr.1 == cid) = 1 := by
  have hb1 : init_channel_doc denv1 ch [] cid item1 ss1 so1 ib1 bct1
      = [(cid, init_channel_doc_data denv1 cid item1 ss1 so1 ib1 bct1)] := by
    simp [init_channel_doc, habs]
  rw [hb1, batchCommit_singleton]
  have hget := fsGet_fsSet_self ch cid
    (init_channel_doc_data denv1 cid item1 ss1 so1 ib1 bct1)
  refine ⟨?_, hget, countP_fsSet_of_absent _ habs⟩
  simp [init_channel_doc, hget]

/-- Closed instance of `init_channel_doc_create_once` on an empty
collection. -/
theorem init_channel_doc_create_once_witness :
    init_channel_doc {} (batchCommit []
        (init_channel_doc {} [] [] "UCx" none none true true "propagated"))
        [] "UCx" none none true true "propagated" = [] ∧
    fsGet (batchCommit []
        (init_channel_doc {} [] [] "UCx" none none true true "propagated"))
        "UCx"
      = some (init_channel_doc_data {} "UCx" none none true true
          "propagated") ∧
    (batchCommit []
        (init_channel_doc {} [] [] "UCx" none none true true
          "propagated")).countP (fun pr => pr.1 == "UCx") = 1 :=
  init_channel_doc_create_once {} {} [] "UCx" none none none none
    true true true true "propagated" "propagated" rfl

/-! ## C10 — `is_bot_checked` mirrors `is_bot` -/

/-- C10: both writers of `channel` documents (`_init_channel_doc` and the
scrape-only branch of `_process_channel_without_api`) set
`is_bot_checked` to the `is_bot` value, so a record written with
`is_bot=False` is unchecked and is excluded from the default seed query
(`is_bot_checked==True and is_bot==True`). -/
theorem is_bot_checked_mirrors_is_bot (denv : ApiDocEnv) (cid : String)
    (item : Option ApiChannelItem) (ss : Option String) (so ib : Bool)
    (bct : String) (now : Nat) (p : CrawlParams) (identifier : String)
    (ssu au ag bu bg : Option String)
    (ch : List (String × ChannelDoc)) :
    (init_channel_doc_data denv cid item ss so ib bct).is_bot_checked
      = ib ∧
    (scrape_only_channel_doc now p identifier ssu au ag bu
        bg).is_bot_checked = p.is_bot ∧
    (ib = false → (ch.map Prod.fst).Nodup →
      cid ∉ firestore_bot_seeds (fsSet ch cid
        (init_channel_doc_data denv cid item ss so ib bct))) ∧
    (p.is_bot = false → (ch.map Prod.fst).Nodup →
      identifier ∉ firestore_bot_seeds (fsSet ch identifier
        (scrape_only_channel_doc now p identifier ssu au ag bu bg))) := by
  refine ⟨rfl, rfl, ?_, ?_⟩
  · intro hib hnd hmem
    simp only [firestore_bot_seeds, List.mem_map] at hmem
    obtain ⟨pr, hpr, hfst⟩ := hmem
    rw [List.mem_filter] at hpr
    obtain ⟨hmem2, hpred⟩ := hpr
    obtain ⟨k1, d1⟩ := pr
    cases hfst
    have hd := eq_of_mem_fsSet_self_key hnd hmem2
    rw [hd] at hpred
    have hck : ChannelDoc.is_bot_checked
        (init_channel_doc_data denv k1 item ss so ib bct) = ib := rfl
    rw [Bool.and_eq_true, hck, hib] at hpred
    exact absurd hpred.1 (by simp)
  · intro hib hnd hmem
    simp only [firestore_bot_seeds, List.mem_map] at hmem
    obtain ⟨pr, hpr, hfst⟩ := hmem
    rw [List.mem_filter] at hpr
    obtain ⟨hmem2, hpred⟩ := hpr
    obtain ⟨k1, d1⟩ := pr
    cases hfst
    have hd := eq_of_mem_fsSet_self_key hnd hmem2
    rw [hd] at hpred
    have hck : ChannelDoc.is_bot_checked
        (scrape_only_channel_doc now p k1 ssu au ag bu bg) = p.is_bot := rfl
    rw [Bool.and_eq_true, hck, hib] at hpred
    exact absurd hpred.1 (by simp)

/-- Closed instance of `is_bot_checked_mirrors_is_bot` for an
`is_bot=False` record on an empty collection. -/
theorem is_bot_checked_mirrors_is_bot_witness :
    (init_channel_doc_data {} "UCx" none none true false
        "pending_review").is_bot_checked = false ∧
    "UCx" ∉ firestore_bot_seeds (fsSet [] "UCx"
      (init_channel_doc_data {} "UCx" none none true false
        "pending_review")) := by
  have h := is_bot_checked_mirrors_is_bot {} "UCx" none none true false
    "pending_review" 0 pPendingReview "UCy" none none none none none []
  exact ⟨h.1, h.2.2.1 rfl (by decide)⟩

/-! ## C8 — `scrape_about_page` retry bound, failure result, cleanup -/

/-- The retry loop uses at most `used + l.length` attempts. -/
theorem aboutNavLoop_used_le (l : List NavOutcome) (used : Nat) :
    (aboutNavLoop l used).used ≤ used + l.length := by
  induction l generalizing used with
  | nil => simp [aboutNavLoop, NavLoopResult.used]
  | cons o rest ih =>
    cases o
    case navError =>
      by_cases h : rest.isEmpty
      · simp [aboutNavLoop, h, NavLoopResult.used]
      · have hstep : aboutNavLoop (NavOutcome.navError :: rest) used
            = aboutNavLoop rest (used + 1) := by
          simp [aboutNavLoop, h]
        rw [hstep, List.length_cons]
        have := ih (used + 1)
        omega
    case removedAlert =>
      simp only [aboutNavLoop, NavLoopResult.used, List.length_cons]
      omega
    case notLoaded =>
      by_cases h : rest.isEmpty
      · simp [aboutNavLoop, h, NavLoopResult.used]
      · have hstep : aboutNavLoop (NavOutcome.notLoaded :: rest) used
            = aboutNavLoop rest (used + 1) := by
          simp [aboutNavLoop, h]
        rw [hstep, List.length_cons]
        have := ih (used + 1)
        omega
    case loaded =>
      simp only [aboutNavLoop, NavLoopResult.used, List.length_cons]
      omega

/-- If every attempt fails to load, the loop ends in the early-return
(empty-result) branch. -/
theorem aboutNavLoop_all_fail (l : List NavOutcome) (used : Nat)
    (hne : l ≠ [])
    (hall : ∀ o ∈ l, o = NavOutcome.navError ∨ o = NavOutcome.notLoaded) :
    ∃ n, aboutNavLoop l used = .earlyReturn n := by
  induction l generalizing used with
  | nil => exact absurd rfl hne
  | cons o rest ih =>
    have ho := hall o (List.mem_cons_self o rest)
    by_cases hr : rest.isEmpty
    · rcases ho with ho | ho <;> rw [ho] <;>
        exact ⟨used + 1, by simp [aboutNavLoop, hr]⟩
    · have hrecur := ih (used + 1)
        (by intro h; rw [h] at hr; exact hr rfl)
        (fun o2 ho2 => hall o2 (List.mem_cons_of_mem _ ho2))
      rcases ho with ho | ho <;> rw [ho] <;>
        simpa [aboutNavLoop, hr] using hrecur

/-- C8: `scrape_about_page` makes at most three navigation attempts,
closes the page whenever one was opened (even on failure paths), and if
every attempt fails to load the content it returns the pair of empty
lists rather than raising. -/
theorem scrape_about_page_retries_bounded (e : AboutPageEnv) (lim : Nat) :
    (scrape_about_page e lim).attempts_used ≤ 3 ∧
    ((scrape_about_page e lim).page_opened = true →
      (scrape_about_page e lim).page_closed = true) ∧
    ((∀ o ∈ [e.nav0, e.nav1, e.nav2],
        o = NavOutcome.navError ∨ o = NavOutcome.notLoaded) →
      (scrape_about_page e lim).about_links = [] ∧
      (scrape_about_page e lim).subscriptions = []) := by
  by_cases hnp : e.newPageOk = false
  · refine ⟨?_, ?_, ?_⟩ <;> simp [scrape_about_page, hnp]
  · have hused := aboutNavLoop_used_le [e.nav0, e.nav1, e.nav2] 0
    rcases heq : aboutNavLoop [e.nav0, e.nav1, e.nav2] 0 with n | n
    · rw [heq] at hused
      refine ⟨?_, ?_, ?_⟩ <;>
        simp_all [scrape_about_page, hnp, heq, NavLoopResult.used]
    · rw [heq] at hused
      refine ⟨?_, ?_, ?_⟩
      · simp_all [scrape_about_page, hnp, heq, NavLoopResult.used]
      · simp [scrape_about_page, hnp, heq]
      · intro hall
        obtain ⟨n2, hn2⟩ := aboutNavLoop_all_fail [e.nav0, e.nav1, e.nav2]
          0 (by simp) hall
        rw [hn2] at heq
        exact absurd heq (by simp)

/-- Closed instance of `scrape_about_page_retries_bounded` on an
environment where every navigation attempt times out. -/
theorem scrape_about_page_retries_bounded_witness :
    (scrape_about_page { newPageOk := true } 50).attempts_used ≤ 3 ∧
    (scrape_about_page { newPageOk := true } 50).page_closed = true ∧
    (scrape_about_page { newPageOk := true } 50).about_links = [] ∧
    (scrape_about_page { newPageOk := true } 50).subscriptions = [] := by
  have h := scrape_about_page_retries_bounded { newPageOk := true } 50
  have h3 := h.2.2 (by decide)
  exact ⟨h.1, h.2.1 (by decide), h3.1, h3.2⟩

/-! ## C3 — unresolved subscription handles in API mode -/

/-- C3 counterexample: in API-enabled mode, the handle `somehandle`
(which fails resolution) is dropped by `_process_subscriptions` — the
frontier and the enqueue log stay empty and no pending record is written,
contrary to the claim that it re-enters the frontier in unresolved
form. -/
theorem unresolved_handle_requeue_counterexample :
    resolve_handle_to_id envBlank "somehandle" = none ∧
    (process_subscriptions envBlank pDefault ["somehandle"] "UCparent"
      true (initState fsEmpty [])).queue = [] ∧
    (process_subscriptions envBlank pDefault ["somehandle"] "UCparent"
      true (initState fsEmpty [])).enqueued = [] ∧
    fsGet (process_subscriptions envBlank pDefault ["somehandle"]
      "UCparent" true (initState fsEmpty [])).db.channel_pending
      "somehandle" = none := by
  refine ⟨rfl, ?_, ?_, ?_⟩ <;> decide

/-- C3 amended: in API-enabled mode a subscription handle that fails
resolution is discarded — `sub_id` falls back to the handle, which fails
the `startswith("UC")` guard, so the state is returned untouched (no
enqueue, no pending record, no link).  Only in scrape-only mode does the
handle re-enter the frontier in unresolved form, with a pending
document. -/
theorem unresolved_handle_discarded_in_api_mode (env : CrawlEnv)
    (p : CrawlParams) (identifier sub : String) (s : CrawlState)
    (hH : str_startsWith sub "UC" = false)
    (hres : resolve_handle_to_id env sub = none) :
    processSubsOne env p true identifier s sub = s ∧
    (sub ∉ s.seen →
      (processSubsOne env p false identifier s sub).queue
        = s.queue ++ [sub] ∧
      fsGet (processSubsOne env p false identifier s
          sub).db.channel_pending sub
        = some { handle := some sub, discovered_at := some env.denv.now,
                 source := some "subscriptions",
                 needs_resolution := some true }) := by
  constructor
  · simp [processSubsOne, hH, hres]
  · intro hns
    constructor
    · simp [processSubsOne, hH, enqueueIfNew, hns, enqueue]
    · simp [processSubsOne, hH, enqueueIfNew, hns, enqueue,
        fsGet_fsSet_self]

/-- Closed instance of `unresolved_handle_discarded_in_api_mode`. -/
theorem unresolved_handle_discarded_in_api_mode_witness :
    processSubsOne envBlank pDefault true "UCparent"
      (initState fsEmpty []) "somehandle" = initState fsEmpty [] ∧
    ((processSubsOne envBlank pDefault false "UCparent"
        (initState fsEmpty []) "somehandle").queue = ["somehandle"] ∧
      fsGet (processSubsOne envBlank pDefault false "UCparent"
          (initState fsEmpty []) "somehandle").db.channel_pending
          "somehandle"
        = some { handle := some "somehandle", discovered_at := some 0,
                 source := some "subscriptions",
                 needs_resolution := some true }) := by
  have h := unresolved_handle_discarded_in_api_mode envBlank pDefault
    "UCparent" "somehandle" (initState fsEmpty []) (by decide) rfl
  exact ⟨h.1, h.2 (by decide)⟩

/-! ## Shape lemmas for `_process_channel_without_api` -/

/-- Featured-channel handling never records a scraper call. -/
theorem processFeaturedOne_calls (env : CrawlEnv) (p : CrawlParams)
    (identifier : String) (s : CrawlState) (f : String) :
    (processFeaturedOne env p identifier s f).calls = s.calls := by
  simp only [processFeaturedOne, enqueueIfNew, enqueue]
  split
  · split <;> rfl
  · split <;> rfl

/-- Folding a calls-preserving function preserves the calls log. -/
theorem foldl_calls_const {f : CrawlState → String → CrawlState}
    (hf : ∀ s x, (f s x).calls = s.calls) (xs : List String)
    (s : CrawlState) : (xs.foldl f s).calls = s.calls := by
  induction xs generalizing s with
  | nil => rfl
  | cons x t ih => rw [List.foldl_cons, ih, hf]

/-- `_process_channel_without_api` always invokes, in order, the
homepage screenshot, the avatar scrape, the banner scrape, the
featured-channel scrape, and the About-page scrape — for every
environment, including a removed channel. -/
theorem process_channel_without_api_calls (env : CrawlEnv)
    (p : CrawlParams) (identifier : String) (s : CrawlState) :
    (process_channel_without_api env p identifier s).1.calls
      = s.calls ++ [(identifier, .captureHome), (identifier, .scrapeAvatar),
          (identifier, .scrapeBanner), (identifier, .scrapeFeatured),
          (identifier, .scrapeAbout)] := by
  have hfold := foldl_calls_const
    (fun s2 x => processFeaturedOne_calls env p identifier s2 x)
    (lookupEntry env identifier).featured
  simp only [process_channel_without_api, logCall]
  split <;>
    · split <;> simp [hfold]

/-- The batched `channel` write of `_process_channel_without_api` for a
canonical (`UC…`) identifier is exactly the skeleton scrape-only
document. -/
theorem process_channel_without_api_batch (env : CrawlEnv)
    (p : CrawlParams) (identifier : String) (s : CrawlState)
    (hUC : str_startsWith identifier "UC" = true) :
    (process_channel_without_api env p identifier s).2.1
      = [(identifier, scrape_only_channel_doc env.denv.now p identifier
          (capture_home_screenshot (lookupEntry env identifier) identifier)
          (scrape_avatar_url (lookupEntry env identifier))
          (match scrape_avatar_url (lookupEntry env identifier) with
           | some _ => download_and_store_avatar (lookupEntry env identifier)
               identifier
           | none => none)
          (scrape_banner_url (lookupEntry env identifier))
          (match scrape_banner_url (lookupEntry env identifier) with
           | some _ => download_and_store_banner (lookupEntry env identifier)
               identifier
           | none => none))] := by
  simp only [process_channel_without_api, logCall, hUC, if_true]

/-- The subscriptions returned by `_process_channel_without_api` are the
ones the About-page scrape yields. -/
theorem process_channel_without_api_subs (env : CrawlEnv)
    (p : CrawlParams) (identifier : String) (s : CrawlState) :
    (process_channel_without_api env p identifier s).2.2
      = (lookupEntry env identifier).subs := by
  simp only [process_channel_without_api, logCall]

/-! ## C7 — total evidence failure still writes a record -/

/-- C7: in scrape-only mode, when the screenshot, avatar and banner
fetches all fail (all `None`) for a canonical identifier, the step still
writes a `channel` document whose evidence fields are all `None` and
whose `is_metadata_missing` is true. -/
theorem all_evidence_failures_still_write_record (env : CrawlEnv)
    (p : CrawlParams) (s : CrawlState) (identifier : String)
    (rest : List String) (hq : s.queue = identifier :: rest)
    (hraise : (lookupEntry env identifier).raises = false)
    (hUC : str_startsWith identifier "UC" = true)
    (hss : capture_home_screenshot (lookupEntry env identifier) identifier
      = none)
    (hav : (lookupEntry env identifier).avatarUrl = none)
    (hbn : (lookupEntry env identifier).bannerUrl = none) :
    fsGet (crawlStep env p s).db.channel identifier
      = some (scrape_only_channel_doc env.denv.now p identifier none none
          none none none) ∧
    (scrape_only_channel_doc env.denv.now p identifier none none none
        none none).is_metadata_missing = true ∧
    (scrape_only_channel_doc env.denv.now p identifier none none none
        none none).screenshot_gcs_uri = none ∧
    (scrape_only_channel_doc env.denv.now p identifier none none none
        none none).avatar_gcs_uri = none ∧
    (scrape_only_channel_doc env.denv.now p identifier none none none
        none none).banner_gcs_uri = none := by
  refine ⟨?_, rfl, rfl, rfl, rfl⟩
  obtain ⟨db, seen, queue, processed, enqueued, calls⟩ := s
  simp only at hq
  subst hq
  have hbatch := process_channel_without_api_batch env p identifier
    { db := db, seen := seen, queue := rest,
      processed := processed ++ [identifier], enqueued := enqueued,
      calls := calls } hUC
  rw [hss] at hbatch
  simp only [scrape_avatar_url, scrape_banner_url, hav, hbn] at hbatch
  simp only [crawlStep, hraise, Bool.false_eq_true, if_false]
  rw [hbatch, batchCommit_singleton, fsGet_fsSet_self]

/-- Closed instance of `all_evidence_failures_still_write_record`: the
unknown channel `UCghost` (every fetch fails) still gets a record. -/
theorem all_evidence_failures_still_write_record_witness :
    fsGet (crawlStep envBlank pDefault
        (initState fsEmpty ["UCghost"])).db.channel "UCghost"
      = some (scrape_only_channel_doc 0 pDefault "UCghost" none none none
          none none) ∧
    (scrape_only_channel_doc 0 pDefault "UCghost" none none none none
        none).is_metadata_missing = true ∧
    (scrape_only_channel_doc 0 pDefault "UCghost" none none none none
        none).screenshot_gcs_uri = none ∧
    (scrape_only_channel_doc 0 pDefault "UCghost" none none none none
        none).avatar_gcs_uri = none ∧
    (scrape_only_channel_doc 0 pDefault "UCghost" none none none none
        none).banner_gcs_uri = none :=
  all_evidence_failures_still_write_record envBlank pDefault
    (initState fsEmpty ["UCghost"]) "UCghost" [] rfl rfl (by decide)
    rfl rfl rfl

/-! ## C2 — removed channels are not short-circuited -/

/-- C2 counterexample: `UCgone` shows the removed alert, yet its
processing step still invokes the avatar scrape and the About-page scrape
(the claim says no `PageScraper` method is invoked for a removed
channel). -/
theorem removed_channel_short_circuit_counterexample :
    (lookupEntry envRemoved "UCgone").homeOutcome
      = HomeOutcome.removedAlert ∧
    ("UCgone", ScrapeCall.scrapeAvatar) ∈
      (expand_bot_graph_async envRemoved pDefault fsEmpty ["UCgone"]
        1).calls ∧
    ("UCgone", ScrapeCall.scrapeAbout) ∈
      (expand_bot_graph_async envRemoved pDefault fsEmpty ["UCgone"]
        1).calls := by
  refine ⟨rfl, ?_, ?_⟩ <;> decide

/-- C2 amended: detecting the removed alert only suppresses the
screenshot (`capture_home_screenshot` returns `None`); the processing
step does not short-circuit — every scraper method is still invoked in
order, and the record written for a canonical identifier is the ordinary
scrape-only document with a `None` screenshot, not a distinct
removed-status record. -/
theorem removed_channel_not_short_circuited (env : CrawlEnv)
    (p : CrawlParams) (s : CrawlState) (identifier : String)
    (hrem : (lookupEntry env identifier).homeOutcome
      = HomeOutcome.removedAlert)
    (hUC : str_startsWith identifier "UC" = true) :
    capture_home_screenshot (lookupEntry env identifier) identifier
      = none ∧
    (process_channel_without_api env p identifier s).1.calls
      = s.calls ++ [(identifier, .captureHome), (identifier, .scrapeAvatar),
          (identifier, .scrapeBanner), (identifier, .scrapeFeatured),
          (identifier, .scrapeAbout)] ∧
    (process_channel_without_api env p identifier s).2.1
      = [(identifier, scrape_only_channel_doc env.denv.now p identifier
          none
          (scrape_avatar_url (lookupEntry env identifier))
          (match scrape_avatar_url (lookupEntry env identifier) with
           | some _ => download_and_store_avatar (lookupEntry env identifier)
               identifier
           | none => none)
          (scrape_banner_url (lookupEntry env identifier))
          (match scrape_banner_url (lookupEntry env identifier) with
           | some _ => download_and_store_banner (lookupEntry env identifier)
               identifier
           | none => none))] := by
  have hcap : capture_home_screenshot (lookupEntry env identifier)
      identifier = none := by
    simp [capture_home_screenshot, hrem]
  refine ⟨hcap, process_channel_without_api_calls env p identifier s, ?_⟩
  have hbatch := process_channel_without_api_batch env p identifier s hUC
  rw [hcap] at hbatch
  exact hbatch

/-- Closed instance of `removed_channel_not_short_circuited` on the
removed channel `UCgone`. -/
theorem removed_channel_not_short_circuited_witness :
    capture_home_screenshot (lookupEntry envRemoved "UCgone") "UCgone"
      = none ∧
    (process_channel_without_api envRemoved pDefault "UCgone"
        (initState fsEmpty ["UCgone"])).1.calls
      = (initState fsEmpty ["UCgone"]).calls ++
          [("UCgone", .captureHome), ("UCgone", .scrapeAvatar),
           ("UCgone", .scrapeBanner), ("UCgone", .scrapeFeatured),
           ("UCgone", .scrapeAbout)] ∧
    (process_channel_without_api envRemoved pDefault "UCgone"
        (initState fsEmpty ["UCgone"])).2.1
      = [("UCgone", scrape_only_channel_doc 0 pDefault "UCgone" none
          (scrape_avatar_url (lookupEntry envRemoved "UCgone"))
          (match scrape_avatar_url (lookupEntry envRemoved "UCgone") with
           | some _ => download_and_store_avatar
               (lookupEntry envRemoved "UCgone") "UCgone"
           | none => none)
          (scrape_banner_url (lookupEntry envRemoved "UCgone"))
          (match scrape_banner_url (lookupEntry envRemoved "UCgone") with
           | some _ => download_and_store_banner
               (lookupEntry envRemoved "UCgone") "UCgone"
           | none => none))] :=
  removed_channel_not_short_circuited envRemoved pDefault
    (initState fsEmpty ["UCgone"]) "UCgone" (by decide) (by decide)

/-! ## Universe lemmas -/

/-- A successful lookup is a binding of the list. -/
theorem fsGet_eq_some_mem {α : Type} {l : List (String × α)} {k : String}
    {v : α} (h : fsGet l k = some v) : (k, v) ∈ l := by
  unfold fsGet at h
  cases hf : l.find? (fun p => p.1 == k) with
  | none => rw [hf] at h; simp at h
  | some pr =>
    rw [hf] at h
    have hmem := List.mem_of_find?_eq_some hf
    have hkey := List.find?_some hf
    obtain ⟨k2, v2⟩ := pr
    have hv : v2 = v := by simpa using h
    have hk2 : k2 = k := by simpa using hkey
    rw [← hk2, ← hv]
    exact hmem

theorem mem_uni_of_seed {env : CrawlEnv} {seeds : List String} {x : String}
    (h : x ∈ seeds) : x ∈ uniFinset env seeds := by
  simp only [uniFinset, List.mem_toFinset, uniList, List.mem_append]
  exact Or.inl h

theorem mem_uni_of_featured {env : CrawlEnv} {seeds : List String}
    {id f : String} (hf : f ∈ (lookupEntry env id).featured) :
    f ∈ uniFinset env seeds := by
  simp only [uniFinset, List.mem_toFinset, uniList, List.mem_append]
  right
  unfold lookupEntry at hf
  cases hget : fsGet env.entries id with
  | none =>
    rw [hget] at hf
    have hnil : ((none : Option EnvEntry).getD {}).featured = [] := rfl
    rw [hnil] at hf
    exact absurd hf (List.not_mem_nil f)
  | some e =>
    rw [hget] at hf
    simp only [Option.getD_some] at hf
    have hmem := fsGet_eq_some_mem hget
    refine List.mem_flatMap.mpr ⟨(id, e), hmem, ?_⟩
    simp only [List.mem_cons, List.mem_append]
    exact Or.inr (Or.inl hf)

theorem mem_uni_of_subs {env : CrawlEnv} {seeds : List String}
    {id x : String} (hx : x ∈ (lookupEntry env id).subs) :
    x ∈ uniFinset env seeds := by
  simp only [uniFinset, List.mem_toFinset, uniList, List.mem_append]
  right
  unfold lookupEntry at hx
  cases hget : fsGet env.entries id with
  | none =>
    rw [hget] at hx
    have hnil : ((none : Option EnvEntry).getD {}).subs = [] := rfl
    rw [hnil] at hx
    exact absurd hx (List.not_mem_nil x)
  | some e =>
    rw [hget] at hx
    simp only [Option.getD_some] at hx
    have hmem := fsGet_eq_some_mem hget
    refine List.mem_flatMap.mpr ⟨(id, e), hmem, ?_⟩
    simp only [List.mem_cons, List.mem_append]
    exact Or.inr (Or.inr hx)

/-! ## Enqueue and phase lemmas -/

/-- Enqueuing a fresh universe element keeps the seen-set inside the
universe, decreases the measure by exactly one, and preserves the
no-duplicate invariant. -/
theorem enqueue_ok {U : Finset String} {x : String} {s : CrawlState}
    (hxU : x ∈ U) (hx : x ∉ s.seen) :
    (s.seen ⊆ U → (enqueue x s).seen ⊆ U ∧
      crawlMeasure U (enqueue x s) + 1 = crawlMeasure U s) ∧
    (NodupInv s → NodupInv (enqueue x s)) := by
  constructor
  · intro hsub
    have hsub2 : insert x s.seen ⊆ U := Finset.insert_subset_iff.mpr
      ⟨hxU, hsub⟩
    refine ⟨hsub2, ?_⟩
    have hcard : (insert x s.seen).card = s.seen.card + 1 :=
      Finset.card_insert_of_not_mem hx
    have hle : (insert x s.seen).card ≤ U.card := Finset.card_le_card hsub2
    simp only [crawlMeasure, enqueue, List.length_append,
      List.length_singleton, hcard]
    rw [hcard] at hle
    omega
  · rintro ⟨hq, hqs, he, hes⟩
    have hxq : x ∉ s.queue := fun hm => hx (hqs x hm)
    have hxe : x ∉ s.enqueued := fun hm => hx (hes x hm)
    refine ⟨?_, ?_, ?_, ?_⟩
    · show (s.queue ++ [x]).Nodup
      rw [List.nodup_append]
      refine ⟨hq, List.nodup_singleton x, ?_⟩
      intro a ha hb
      rw [List.mem_singleton] at hb
      rw [hb] at ha
      exact hxq ha
    · intro y hy
      rcases List.mem_append.mp hy with h1 | h1
      · exact Finset.mem_insert_of_mem (hqs y h1)
      · rw [List.mem_singleton] at h1
        rw [h1]
        exact Finset.mem_insert_self _ _
    · show (s.enqueued ++ [x]).Nodup
      rw [List.nodup_append]
      refine ⟨he, List.nodup_singleton x, ?_⟩
      intro a ha hb
      rw [List.mem_singleton] at hb
      rw [hb] at ha
      exact hxe ha
    · intro y hy
      rcases List.mem_append.mp hy with h1 | h1
      · exact Finset.mem_insert_of_mem (hes y h1)
      · rw [List.mem_singleton] at h1
        rw [h1]
        exact Finset.mem_insert_self _ _

theorem phaseOK_refl {U : Finset String} {bct : String} (s : CrawlState) :
    PhaseOK U bct s s :=
  ⟨fun h => ⟨h, le_refl _⟩, rfl, fun _ hy => hy, fun h => h,
    fun _ _ h => Or.inl h⟩

theorem PhaseOK.trans {U : Finset String} {bct : String}
    {s1 s2 s3 : CrawlState} (h12 : PhaseOK U bct s1 s2)
    (h23 : PhaseOK U bct s2 s3) : PhaseOK U bct s1 s3 := by
  obtain ⟨ha12, hb12, hc12, hd12, he12⟩ := h12
  obtain ⟨ha23, hb23, hc23, hd23, he23⟩ := h23
  refine ⟨?_, ?_, ?_, ?_, ?_⟩
  · intro hsub
    obtain ⟨h2sub, h2m⟩ := ha12 hsub
    obtain ⟨h3sub, h3m⟩ := ha23 h2sub
    exact ⟨h3sub, le_trans h3m h2m⟩
  · rw [hb23, hb12]
  · intro y hy
    exact hc23 y (hc12 y hy)
  · intro h
    exact hd23 (hd12 h)
  · intro k d hmem
    rcases he23 k d hmem with h | h
    · exact he12 k d h
    · exact Or.inr h

/-- A transformation that only changes `db` fields other than `channel`
(and possibly `calls`) satisfies `PhaseOK`. -/
theorem phaseOK_db_only {U : Finset String} {bct : String}
    {s s2 : CrawlState} (hseen : s2.seen = s.seen)
    (hqueue : s2.queue = s.queue) (hproc : s2.processed = s.processed)
    (henq : s2.enqueued = s.enqueued)
    (hchan : s2.db.channel = s.db.channel) : PhaseOK U bct s s2 := by
  refine ⟨?_, hproc, ?_, ?_, ?_⟩
  · intro hsub
    refine ⟨hseen ▸ hsub, ?_⟩
    simp [crawlMeasure, hseen, hqueue]
  · intro y hy
    rw [hqueue]
    exact hy
  · intro h
    unfold NodupInv at h ⊢
    rw [hseen, hqueue, henq]
    exact h
  · intro k d hmem
    rw [hchan] at hmem
    exact Or.inl hmem

theorem phaseOK_enqueue {U : Finset String} {bct : String} {x : String}
    {s : CrawlState} (hxU : x ∈ U) (hx : x ∉ s.seen) :
    PhaseOK U bct s (enqueue x s) := by
  obtain ⟨h1, h2⟩ := enqueue_ok hxU hx
  refine ⟨?_, rfl, ?_, h2, ?_⟩
  · intro hsub
    obtain ⟨ha, hb⟩ := h1 hsub
    exact ⟨ha, by omega⟩
  · intro y hy
    exact List.mem_append_left _ hy
  · intro k d hmem
    exact Or.inl hmem

theorem phaseOK_enqueueIfNew {U : Finset String} {bct : String}
    {x : String} {s : CrawlState} (hxU : x ∈ U) :
    PhaseOK U bct s (enqueueIfNew x s) := by
  unfold enqueueIfNew
  split
  · exact phaseOK_refl s
  · exact phaseOK_enqueue hxU (by assumption)

/-- Committing a batch whose documents all carry the run's check type
satisfies `PhaseOK`. -/
theorem phaseOK_channel_commit {U : Finset String} {bct : String}
    {s : CrawlState} {db2 : Firestore}
    {batch : List (String × ChannelDoc)}
    (hchan : db2.channel = batchCommit s.db.channel batch)
    (hb : ∀ k d, (k, d) ∈ batch → d.is_bot_check_type = bct) :
    PhaseOK U bct s { s with db := db2 } := by
  refine ⟨fun hsub => ⟨hsub, le_refl _⟩, rfl, fun y hy => hy,
    fun h => h, ?_⟩
  intro k d hmem
  simp only at hmem
  rw [hchan] at hmem
  rcases mem_batchCommit hmem with h | h
  · exact Or.inl h
  · exact Or.inr (hb k d h)

/-- Variant of `phaseOK_channel_commit` with the committed state spelled
out. -/
theorem phaseOK_channel_commit_state {U : Finset String} {bct : String}
    (s : CrawlState) (batch : List (String × ChannelDoc))
    (hb : ∀ k d, (k, d) ∈ batch → d.is_bot_check_type = bct) :
    PhaseOK U bct s
      { s with db :=
        { s.db with channel := batchCommit s.db.channel batch } } :=
  phaseOK_channel_commit rfl hb

/-- Every document `_init_channel_doc` adds to a batch carries the given
check type. -/
theorem init_channel_doc_bct (denv : ApiDocEnv)
    (ch batch : List (String × ChannelDoc)) (cid : String)
    (item : Option ApiChannelItem) (ss : Option String) (so ib : Bool)
    (bct : String)
    (hb : ∀ k d, (k, d) ∈ batch → d.is_bot_check_type = bct) :
    ∀ k d, (k, d) ∈ init_channel_doc denv ch batch cid item ss so ib bct →
      d.is_bot_check_type = bct := by
  intro k d hmem
  unfold init_channel_doc at hmem
  split at hmem
  · exact hb k d hmem
  · rcases List.mem_append.mp hmem with h | h
    · exact hb k d h
    · rw [List.mem_singleton] at h
      obtain ⟨hk, hd⟩ := Prod.mk.injEq .. ▸ h
      rw [hd]
      rfl

theorem phaseOK_logCall {U : Finset String} {bct : String}
    (identifier : String) (c : ScrapeCall) (s : CrawlState) :
    PhaseOK U bct s (logCall identifier c s) :=
  phaseOK_db_only rfl rfl rfl rfl rfl

theorem phaseOK_pending_write {U : Finset String} {bct : String}
    (s : CrawlState) (pends : List (String × PendingDoc)) :
    PhaseOK U bct s
      { s with db := { s.db with channel_pending := pends } } :=
  phaseOK_db_only rfl rfl rfl rfl rfl

theorem phaseOK_domains_branch {U : Finset String} {bct : String}
    (cond : Prop) [Decidable cond] (s : CrawlState)
    (doms : List DomainDoc) :
    PhaseOK U bct s
      (if cond then s
       else { s with db := { s.db with channel_domains := doms } }) := by
  split
  · exact phaseOK_refl s
  · exact phaseOK_db_only rfl rfl rfl rfl rfl

/-- One featured channel preserves the phase invariants. -/
theorem processFeaturedOne_phaseOK (env : CrawlEnv) (p : CrawlParams)
    (identifier : String) {U : Finset String} (s : CrawlState)
    (f : String) (hfU : f ∈ U) :
    PhaseOK U p.bot_check_type s
      (processFeaturedOne env p identifier s f) := by
  unfold processFeaturedOne
  by_cases hst : str_startsWith f "UC" = true
  · rw [if_pos hst]
    by_cases hseen : f ∈ s.seen
    · rw [if_pos hseen]
      exact phaseOK_refl s
    · rw [if_neg hseen]
      refine PhaseOK.trans (phaseOK_enqueue hfU hseen) ?_
      exact phaseOK_channel_commit rfl
        (init_channel_doc_bct env.denv (enqueue f s).db.channel [] f none
          none true p.is_bot p.bot_check_type
          (fun k d h => absurd h (List.not_mem_nil _)))
  · rw [if_neg hst]
    refine PhaseOK.trans (phaseOK_enqueueIfNew hfU) ?_
    exact phaseOK_db_only rfl rfl rfl rfl rfl

/-- One subscription (scrape-only mode) preserves the phase
invariants. -/
theorem processSubsOne_phaseOK (env : CrawlEnv) (p : CrawlParams)
    (identifier : String) {U : Finset String} (s : CrawlState)
    (sub : String) (hsU : sub ∈ U) :
    PhaseOK U p.bot_check_type s
      (processSubsOne env p false identifier s sub) := by
  by_cases hst : str_startsWith sub "UC" = true
  · simp only [processSubsOne, hst, if_true, eq_self_iff_true, and_true]
    by_cases hns : sub ∉ s.seen
    · rw [if_pos hns]
      refine PhaseOK.trans (phaseOK_enqueue hsU hns) ?_
      exact phaseOK_db_only rfl rfl rfl rfl rfl
    · rw [if_neg hns]
      exact phaseOK_refl s
  · simp only [processSubsOne, hst, Bool.false_eq_true, if_false]
    refine PhaseOK.trans (phaseOK_enqueueIfNew hsU) ?_
    exact phaseOK_db_only rfl rfl rfl rfl rfl

/-- Folding a phase-preserving function over universe elements preserves
the phase invariants. -/
theorem foldl_phaseOK {U : Finset String} {bct : String}
    {f : CrawlState → String → CrawlState}
    (hf : ∀ (s : CrawlState) (x : String), x ∈ U → PhaseOK U bct s (f s x)) :
    ∀ (xs : List String) (s : CrawlState), (∀ x ∈ xs, x ∈ U) →
      PhaseOK U bct s (xs.foldl f s) := by
  intro xs
  induction xs with
  | nil => intro s _; exact phaseOK_refl s
  | cons x t ih =>
    intro s hxs
    rw [List.foldl_cons]
    exact PhaseOK.trans (hf s x (hxs x (List.mem_cons_self x t)))
      (ih (f s x) (fun y hy => hxs y (List.mem_cons_of_mem _ hy)))

/-- The whole scrape-only processing of one identifier preserves the
phase invariants. -/
theorem process_channel_without_api_phaseOK (env : CrawlEnv)
    (p : CrawlParams) (identifier : String) {U : Finset String}
    (s : CrawlState)
    (hfeat : ∀ x ∈ (lookupEntry env identifier).featured, x ∈ U) :
    PhaseOK U p.bot_check_type s
      (process_channel_without_api env p identifier s).1 := by
  have hfold : ∀ s0 : CrawlState,
      PhaseOK U p.bot_check_type s0
        ((lookupEntry env identifier).featured.foldl
          (processFeaturedOne env p identifier) s0) :=
    fun s0 => foldl_phaseOK
      (fun s2 x hx => processFeaturedOne_phaseOK env p identifier s2 x hx)
      _ s0 hfeat
  unfold process_channel_without_api
  by_cases hUC : str_startsWith identifier "UC" = true
  · simp only [hUC, eq_self_iff_true, if_true]
    refine PhaseOK.trans
      (phaseOK_logCall identifier ScrapeCall.captureHome s) ?_
    refine PhaseOK.trans
      (phaseOK_logCall identifier ScrapeCall.scrapeAvatar _) ?_
    refine PhaseOK.trans
      (phaseOK_logCall identifier ScrapeCall.scrapeBanner _) ?_
    refine PhaseOK.trans
      (phaseOK_logCall identifier ScrapeCall.scrapeFeatured _) ?_
    refine PhaseOK.trans (hfold _) ?_
    refine PhaseOK.trans
      (phaseOK_logCall identifier ScrapeCall.scrapeAbout _) ?_
    exact phaseOK_domains_branch _ _ _
  · simp only [hUC, Bool.false_eq_true, if_false]
    refine PhaseOK.trans
      (phaseOK_logCall identifier ScrapeCall.captureHome s) ?_
    refine PhaseOK.trans
      (phaseOK_logCall identifier ScrapeCall.scrapeAvatar _) ?_
    refine PhaseOK.trans
      (phaseOK_logCall identifier ScrapeCall.scrapeBanner _) ?_
    generalize (logCall identifier ScrapeCall.scrapeBanner
      (logCall identifier ScrapeCall.scrapeAvatar
        (logCall identifier ScrapeCall.captureHome s))) = t
    refine PhaseOK.trans (phaseOK_pending_write t
      (setPendingMerge t.db.channel_pending identifier
        { handle := some identifier
          screenshot_gcs_uri :=
            capture_home_screenshot (lookupEntry env identifier) identifier
          avatar_url := scrape_avatar_url (lookupEntry env identifier)
          avatar_gcs_uri :=
            match scrape_avatar_url (lookupEntry env identifier) with
            | some _ => download_and_store_avatar
                (lookupEntry env identifier) identifier
            | none => none
          banner_url := scrape_banner_url (lookupEntry env identifier)
          banner_gcs_uri :=
            match scrape_banner_url (lookupEntry env identifier) with
            | some _ => download_and_store_banner
                (lookupEntry env identifier) identifier
            | none => none
          is_bot := some p.is_bot
          is_bot_check_type := some p.bot_check_type
          is_metadata_missing := some true
          discovered_at := some env.denv.now
          last_checked_at := some env.denv.now })) ?_
    refine PhaseOK.trans
      (phaseOK_logCall identifier ScrapeCall.scrapeFeatured _) ?_
    refine PhaseOK.trans (hfold _) ?_
    refine PhaseOK.trans
      (phaseOK_logCall identifier ScrapeCall.scrapeAbout _) ?_
    exact phaseOK_domains_branch _ _ _

/-- For a non-canonical identifier the batched `channel` write is
empty. -/
theorem process_channel_without_api_batch_handle (env : CrawlEnv)
    (p : CrawlParams) (identifier : String) (s : CrawlState)
    (hUC : ¬ str_startsWith identifier "UC" = true) :
    (process_channel_without_api env p identifier s).2.1 = [] := by
  simp only [process_channel_without_api, logCall, hUC,
    Bool.false_eq_true, if_false]

/-- Every batched `channel` document of one processing step carries the
run's check type. -/
theorem process_channel_without_api_batch_bct (env : CrawlEnv)
    (p : CrawlParams) (identifier : String) (s : CrawlState) :
    ∀ k d, (k, d) ∈ (process_channel_without_api env p identifier s).2.1 →
      d.is_bot_check_type = p.bot_check_type := by
  intro k d hmem
  by_cases hUC : str_startsWith identifier "UC" = true
  · rw [process_channel_without_api_batch env p identifier s hUC] at hmem
    rw [List.mem_singleton] at hmem
    obtain ⟨hk, hd⟩ := Prod.mk.injEq .. ▸ hmem
    rw [hd]
    rfl
  · rw [process_channel_without_api_batch_handle env p identifier s hUC]
      at hmem
    exact absurd hmem (List.not_mem_nil _)

/-- One loop iteration: the seen-set stays inside the universe, the
measure strictly decreases, the popped identifier is logged as processed,
the rest of the frontier survives, the no-duplicate invariant is
preserved, and any new `channel` document carries the run's check
type. -/
theorem crawlStep_ok (env : CrawlEnv) (p : CrawlParams) {U : Finset String}
    (s : CrawlState) (identifier : String) (rest : List String)
    (hq : s.queue = identifier :: rest)
    (hfeat : ∀ x ∈ (lookupEntry env identifier).featured, x ∈ U)
    (hsubs : ∀ x ∈ (lookupEntry env identifier).subs, x ∈ U) :
    (s.seen ⊆ U → (crawlStep env p s).seen ⊆ U ∧
      crawlMeasure U (crawlStep env p s) < crawlMeasure U s) ∧
    (crawlStep env p s).processed = s.processed ++ [identifier] ∧
    (∀ y ∈ rest, y ∈ (crawlStep env p s).queue) ∧
    (NodupInv s → NodupInv (crawlStep env p s)) ∧
    (∀ k d, (k, d) ∈ (crawlStep env p s).db.channel →
      (k, d) ∈ s.db.channel ∨ d.is_bot_check_type = p.bot_check_type) := by
  obtain ⟨db, seen, queue, processed, enqueued, calls⟩ := s
  simp only at hq
  subst hq
  have hpop0 : NodupInv
      (CrawlState.mk db seen (identifier :: rest) processed enqueued
        calls) →
      NodupInv (CrawlState.mk db seen rest (processed ++ [identifier])
        enqueued calls) := by
    rintro ⟨h1, h2, h3, h4⟩
    exact ⟨List.Nodup.of_cons h1,
      fun x hx => h2 x (List.mem_cons_of_mem _ hx), h3, h4⟩
  simp only [crawlStep]
  by_cases hrai : (lookupEntry env identifier).raises = true
  · rw [if_pos hrai]
    refine ⟨?_, rfl, fun y hy => hy, hpop0, fun k d h => Or.inl h⟩
    intro hsub
    refine ⟨hsub, ?_⟩
    simp [crawlMeasure]
  · rw [if_neg hrai]
    have h1 := process_channel_without_api_phaseOK env p identifier
      (CrawlState.mk db seen rest (processed ++ [identifier]) enqueued
        calls) hfeat
    have hsubs2 : ∀ x ∈ (process_channel_without_api env p identifier
        (CrawlState.mk db seen rest (processed ++ [identifier]) enqueued
          calls)).2.2, x ∈ U := by
      rw [process_channel_without_api_subs]
      exact hsubs
    have h2 : PhaseOK U p.bot_check_type
        (process_channel_without_api env p identifier
          (CrawlState.mk db seen rest (processed ++ [identifier])
            enqueued calls)).1
        (process_subscriptions env p
          (process_channel_without_api env p identifier
            (CrawlState.mk db seen rest (processed ++ [identifier])
              enqueued calls)).2.2
          identifier false
          (process_channel_without_api env p identifier
            (CrawlState.mk db seen rest (processed ++ [identifier])
              enqueued calls)).1) :=
      foldl_phaseOK
        (fun s2 x hx => processSubsOne_phaseOK env p identifier s2 x hx)
        _ _ hsubs2
    have hall := PhaseOK.trans (PhaseOK.trans h1 h2)
      (phaseOK_channel_commit_state _ _
        (process_channel_without_api_batch_bct env p identifier
          (CrawlState.mk db seen rest (processed ++ [identifier])
            enqueued calls)))
    obtain ⟨ha, hb, hc, hd, he⟩ := hall
    refine ⟨?_, hb, hc, fun hnd => hd (hpop0 hnd), fun k d h => he k d h⟩
    intro hsub
    obtain ⟨hseen2, hle⟩ := ha hsub
    refine ⟨hseen2, ?_⟩
    have hm0 : crawlMeasure U (CrawlState.mk db seen rest
        (processed ++ [identifier]) enqueued calls) + 1
        = crawlMeasure U (CrawlState.mk db seen (identifier :: rest)
          processed enqueued calls) := by
      simp only [crawlMeasure, List.length_cons]
      omega
    exact lt_of_le_of_lt hle (by omega)

/-- Draining the frontier: with fuel at least the measure, the loop ends
with an empty queue, every identifier that was queued gets processed, the
no-duplicate invariant is preserved, and every new `channel` document
carries the run's check type. -/
theorem crawlRun_ok (env : CrawlEnv) (p : CrawlParams) {U : Finset String}
    (hU : ∀ id : String, (∀ x ∈ (lookupEntry env id).featured, x ∈ U) ∧
      (∀ x ∈ (lookupEntry env id).subs, x ∈ U)) :
    ∀ (n : Nat) (s : CrawlState), s.seen ⊆ U → crawlMeasure U s ≤ n →
      (crawlRun env p n s).queue = [] ∧
      (∀ x, (x ∈ s.processed ∨ x ∈ s.queue) →
        x ∈ (crawlRun env p n s).processed) ∧
      (NodupInv s → NodupInv (crawlRun env p n s)) ∧
      (∀ k d, (k, d) ∈ (crawlRun env p n s).db.channel →
        (k, d) ∈ s.db.channel ∨ d.is_bot_check_type = p.bot_check_type) := by
  intro n
  induction n with
  | zero =>
    intro s hsub hm
    have hq : s.queue = [] := by
      have hlen : s.queue.length = 0 := by
        simp only [crawlMeasure] at hm
        omega
      exact List.length_eq_zero.mp hlen
    refine ⟨hq, ?_, fun h => h, fun k d h => Or.inl h⟩
    intro x hx
    rcases hx with hx | hx
    · exact hx
    · rw [hq] at hx
      exact absurd hx (List.not_mem_nil x)
  | succ n ih =>
    intro s hsub hm
    cases hqe : s.queue with
    | nil =>
      have hrun : crawlRun env p (n + 1) s = s := by
        simp only [crawlRun, hqe]
      rw [hrun]
      refine ⟨hqe, ?_, fun h => h, fun k d h => Or.inl h⟩
      intro x hx
      rcases hx with hx | hx
      · exact hx
      · exact absurd hx (List.not_mem_nil x)
    | cons identifier rest =>
      obtain ⟨hstep1, hstep2, hstep3, hstep4, hstep5⟩ :=
        crawlStep_ok env p s identifier rest hqe (hU identifier).1
          (hU identifier).2
      obtain ⟨hseen2, hlt⟩ := hstep1 hsub
      have hm2 : crawlMeasure U (crawlStep env p s) ≤ n := by omega
      have hrun : crawlRun env p (n + 1) s
          = crawlRun env p n (crawlStep env p s) := by
        simp only [crawlRun, hqe]
      rw [hrun]
      obtain ⟨hi1, hi2, hi3, hi4⟩ := ih (crawlStep env p s) hseen2 hm2
      refine ⟨hi1, ?_, ?_, ?_⟩
      · intro x hx
        apply hi2
        rcases hx with hx | hx
        · exact Or.inl (hstep2 ▸ List.mem_append_left _ hx)
        · rcases List.mem_cons.mp hx with hx | hx
          · refine Or.inl ?_
            rw [hstep2, hx]
            exact List.mem_append_right _ (List.mem_singleton_self _)
          · exact Or.inr (hstep3 x hx)
      · intro hnd
        exact hi3 (hstep4 hnd)
      · intro k d hmem
        rcases hi4 k d hmem with h | h
        · exact hstep5 k d h
        · exact Or.inr h

/-! ## C5 — frontier termination and no double enqueue -/

/-- C5: for a duplicate-free seed list and the finite related-channel
graph described by the environment, the frontier loop of
`expand_bot_graph_async` terminates with an empty queue once given fuel
at least the crawl measure, and the enqueue log has no duplicates — the
seen-set prevents any identifier from being enqueued twice in one run
(including on cyclic graphs such as A→B→A). -/
theorem expand_bot_graph_terminates (env : CrawlEnv) (p : CrawlParams)
    (db0 : Firestore) (seeds : List String) (fuel : Nat)
    (hnd : seeds.Nodup)
    (hfuel : crawlMeasure (uniFinset env seeds) (initState db0 seeds)
      ≤ fuel) :
    (expand_bot_graph_async env p db0 seeds fuel).queue = [] ∧
    (expand_bot_graph_async env p db0 seeds fuel).enqueued.Nodup := by
  unfold expand_bot_graph_async
  by_cases hempty : seeds.isEmpty = true
  · rw [if_pos hempty]
    have hnil : seeds = [] := List.isEmpty_iff.mp hempty
    subst hnil
    exact ⟨rfl, List.nodup_nil⟩
  · rw [if_neg hempty]
    have hsub : (initState db0 seeds).seen ⊆ uniFinset env seeds := by
      intro x hx
      exact mem_uni_of_seed (List.mem_toFinset.mp hx)
    have hrun := crawlRun_ok env p
      (fun id => ⟨fun x hx => mem_uni_of_featured hx,
        fun x hx => mem_uni_of_subs hx⟩)
      fuel (initState db0 seeds) hsub hfuel
    have hni : NodupInv (initState db0 seeds) := by
      refine ⟨hnd, ?_, hnd, ?_⟩
      · intro x hx
        exact List.mem_toFinset.mpr hx
      · intro x hx
        exact List.mem_toFinset.mpr hx
    exact ⟨hrun.1, (hrun.2.2.1 hni).2.2.1⟩

/-- Closed instance of `expand_bot_graph_terminates` on the cyclic
two-node featured graph `UCaaa` → `UCbbb` → `UCaaa`. -/
theorem expand_bot_graph_terminates_witness :
    (expand_bot_graph_async envCycle pDefault fsEmpty ["UCaaa"]
      10).queue = [] ∧
    (expand_bot_graph_async envCycle pDefault fsEmpty ["UCaaa"]
      10).enqueued.Nodup :=
  expand_bot_graph_terminates envCycle pDefault fsEmpty ["UCaaa"] 10
    (by decide) (by decide)

/-! ## C6 — per-item failures never abort the crawl -/

/-- C6: whatever per-item failures the environment injects (`raises` on
any identifier — API errors and unexpected exceptions are both caught by
the loop), the crawl drains the frontier to empty and every seed is
dequeued and attempted. -/
theorem crawl_survives_item_failures (env : CrawlEnv) (p : CrawlParams)
    (db0 : Firestore) (seeds : List String) (fuel : Nat)
    (hfuel : crawlMeasure (uniFinset env seeds) (initState db0 seeds)
      ≤ fuel) :
    (expand_bot_graph_async env p db0 seeds fuel).queue = [] ∧
    ∀ x ∈ seeds,
      x ∈ (expand_bot_graph_async env p db0 seeds fuel).processed := by
  unfold expand_bot_graph_async
  by_cases hempty : seeds.isEmpty = true
  · rw [if_pos hempty]
    have hnil : seeds = [] := List.isEmpty_iff.mp hempty
    subst hnil
    exact ⟨rfl, fun x hx => absurd hx (List.not_mem_nil x)⟩
  · rw [if_neg hempty]
    have hsub : (initState db0 seeds).seen ⊆ uniFinset env seeds := by
      intro x hx
      exact mem_uni_of_seed (List.mem_toFinset.mp hx)
    have hrun := crawlRun_ok env p
      (fun id => ⟨fun x hx => mem_uni_of_featured hx,
        fun x hx => mem_uni_of_subs hx⟩)
      fuel (initState db0 seeds) hsub hfuel
    exact ⟨hrun.1, fun x hx => hrun.2.1 x (Or.inr hx)⟩

/-- Closed instance of `crawl_survives_item_failures`: `UCboom` raises
during processing, yet both seeds are dequeued and the frontier
drains. -/
theorem crawl_survives_item_failures_witness :
    (expand_bot_graph_async envOneFailure pDefault fsEmpty
      ["UCboom", "UCok"] 10).queue = [] ∧
    ∀ x ∈ ["UCboom", "UCok"],
      x ∈ (expand_bot_graph_async envOneFailure pDefault fsEmpty
        ["UCboom", "UCok"] 10).processed :=
  crawl_survives_item_failures envOneFailure pDefault fsEmpty
    ["UCboom", "UCok"] 10 (by decide)

/-! ## C4 — label propagation to newly recorded channels -/

/-- C4 counterexample: a pre-existing, manually labelled record whose
identifier is processed from the frontier in scrape-only mode is
overwritten by the run (its `is_bot_check_type` changes from `manual` to
the run's `pending_review`), contrary to the claim that records that
already existed are left unchanged. -/
theorem existing_record_overwritten_counterexample :
    fsGet dbWithManualSeed.channel "UCseed" = some docManual ∧
    docManual.is_bot_check_type = "manual" ∧
    (fsGet (expand_bot_graph_async envBlank pPendingReview
        dbWithManualSeed ["UCseed"] 1).db.channel "UCseed").map
        ChannelDoc.is_bot_check_type
      = some "pending_review" := by
  refine ⟨rfl, rfl, ?_⟩
  decide

/-- C4 amended: in a scrape-only run seeded with
`bot_check_type=pending_review` (`is_bot=False`), every channel document
recorded during the run — frontier documents and featured-child skeleton
documents alike — carries the run's `bot_check_type` (never
`propagated`), i.e. any document in the final store either already
existed or has the run's check type; and `_init_channel_doc` leaves an
existing document unchanged.  (A pre-existing record whose identifier is
itself processed from the frontier is however overwritten by the
unconditional scrape-only `batch.set` — see the counterexample.) -/
theorem newly_recorded_docs_carry_run_check_type (env : CrawlEnv)
    (p : CrawlParams) (db0 : Firestore) (seeds : List String)
    (fuel : Nat) (k : String) (d : ChannelDoc)
    (hfuel : crawlMeasure (uniFinset env seeds) (initState db0 seeds)
      ≤ fuel)
    (hmem : (k, d) ∈ (expand_bot_graph_async env p db0 seeds
      fuel).db.channel) :
    ((k, d) ∈ db0.channel ∨ d.is_bot_check_type = p.bot_check_type) ∧
    (∀ (denv : ApiDocEnv) (ch batch : List (String × ChannelDoc))
      (cid : String) (item : Option ApiChannelItem) (ss : Option String)
      (so ib : Bool) (bct : String), (fsGet ch cid).isSome = true →
      init_channel_doc denv ch batch cid item ss so ib bct = batch) := by
  constructor
  · revert hmem
    unfold expand_bot_graph_async
    by_cases hempty : seeds.isEmpty = true
    · rw [if_pos hempty]
      intro hmem
      exact Or.inl hmem
    · rw [if_neg hempty]
      intro hmem
      have hsub : (initState db0 seeds).seen ⊆ uniFinset env seeds := by
        intro x hx
        exact mem_uni_of_seed (List.mem_toFinset.mp hx)
      have hrun := crawlRun_ok env p
        (fun id => ⟨fun x hx => mem_uni_of_featured hx,
          fun x hx => mem_uni_of_subs hx⟩)
        fuel (initState db0 seeds) hsub hfuel
      exact hrun.2.2.2 k d hmem
  · intro denv ch batch cid item ss so ib bct h
    simp [init_channel_doc, h]

/-- Closed instance of `newly_recorded_docs_carry_run_check_type`: the
newly recorded `UCnew` of a `pending_review` run is not a pre-existing
record, so it carries `pending_review`. -/
theorem newly_recorded_docs_carry_run_check_type_witness :
    ("UCnew", scrape_only_channel_doc 0 pPendingReview "UCnew" none none
        none none none) ∈ dbWithManualSeed.channel ∨
    (scrape_only_channel_doc 0 pPendingReview "UCnew" none none none
        none none).is_bot_check_type = "pending_review" :=
  (newly_recorded_docs_carry_run_check_type envBlank pPendingReview
    dbWithManualSeed ["UCnew"] 10 "UCnew"
    (scrape_only_channel_doc 0 pPendingReview "UCnew" none none none
      none none) (by decide) (by decide)).1

end YtBot
